import Mathlib

/-!
# GloveIQ library import — shallow embedding and verification

This file embeds the export engine of `src/scrapers/jbg/library_import.py`
(the normalization / classification / deduplication / export pipeline) as
executable Lean definitions, and settles the frozen claims C1..C10 about it.

Modelling conventions:
* Python floats are modelled as `Rat` (all numerals the pipeline manipulates
  are exact decimals or small fractions).
* Python's `None`-or-value is `Option`.
* Python code that can raise (`float(a)/float(b)` with `b = 0`, `wb[name]`
  on a missing sheet) is modelled in `Except PyErr`.
* Serialized JSON cell contents are modelled as a `pjson raw parsed` cell
  pairing the raw text with its `json.loads` result (`none` = parse failure);
  `json.loads` itself is not re-implemented.
* `str.lower()` / `str.upper()` / whitespace stripping are modelled on ASCII.
-/

namespace GloveIQ

/-! ## Characters and Python-style string helpers -/

def isDig (c : Char) : Bool := '0' ≤ c && c ≤ '9'

def isPyWs (c : Char) : Bool :=
  c = ' ' || c = '\t' || c = '\n' || c = '\x0d' || c = '\x0b' || c = '\x0c'

/-- Python `str.lower()`, ASCII fragment. -/
def pyLowerChar (c : Char) : Char :=
  if 'A' ≤ c ∧ c ≤ 'Z' then Char.ofNat (c.toNat + 32) else c

/-- Python `str.upper()`, ASCII fragment. -/
def pyUpperChar (c : Char) : Char :=
  if 'a' ≤ c ∧ c ≤ 'z' then Char.ofNat (c.toNat - 32) else c

def pyLower (s : String) : String := String.mk (s.toList.map pyLowerChar)

def pyUpper (s : String) : String := String.mk (s.toList.map pyUpperChar)

/-- Drop the maximal trailing run of characters satisfying `p`. -/
def dropEndWhile (p : Char → Bool) : List Char → List Char
  | [] => []
  | c :: tl =>
    let r := dropEndWhile p tl
    if r.isEmpty ∧ p c then [] else c :: r

/-- Drop characters satisfying `p` from both ends of a character list. -/
def trimEndsBy (p : Char → Bool) (cs : List Char) : List Char :=
  dropEndWhile p (cs.dropWhile p)

/-- Python `str.strip()` (ASCII whitespace). -/
def pyStrip (s : String) : String := String.mk (trimEndsBy isPyWs s.toList)

/-- `listStartsWith hay needle`: `needle` is a prefix of `hay`. -/
def listStartsWith : List Char → List Char → Bool
  | _, [] => true
  | [], _ :: _ => false
  | a :: as, b :: bs => a = b && listStartsWith as bs

/-- Python's substring test `needle in hay`. -/
def listHasSub (hay needle : List Char) : Bool :=
  match hay with
  | [] => needle.isEmpty
  | _ :: tl => listStartsWith hay needle || listHasSub tl needle

def strHasSub (hay needle : String) : Bool := listHasSub hay.toList needle.toList

/-! ## Number printing (Python `str(float)` / format) -/

/-- Decimal digits of `rem / den` (long division), up to `fuel` digits.
Terminating expansions are exact; Python's shortest-repr of a
non-terminating binary float is approximated by truncation at 17 digits. -/
def fracDigits : Nat → Nat → Nat → List Char
  | 0, _, _ => []
  | fuel + 1, rem, den =>
    if rem = 0 then []
    else
      let rem10 := rem * 10
      Char.ofNat (48 + rem10 / den) :: fracDigits fuel (rem10 % den) den

/-- Python `str(x)` for a float `x`: always shows a decimal point
(`str(12.0) = "12.0"`). -/
def floatStr (q : Rat) : String :=
  let n := q.num.natAbs
  let d := q.den
  let ip := n / d
  let fr := fracDigits 17 (n % d) d
  (if q < 0 then "-" else "") ++ toString ip ++ "." ++
    (if fr.isEmpty then "0" else String.mk fr)

/-- Python `str(x)` for an int-or-float JSON/cell number: integers print
without a decimal point. -/
def numStr (q : Rat) : String :=
  if q.den = 1 then toString q.num else floatStr q

/-- Round to the nearest integer, ties to even (Python float formatting). -/
def roundHalfEven (x : Rat) : Int :=
  let fl : Int := ⌊x⌋
  let frac : Rat := x - fl
  if frac < 1 / 2 then fl
  else if 1 / 2 < frac then fl + 1
  else if fl % 2 = 0 then fl else fl + 1

/-- Python `f"{x:.2f}"`. -/
def fmt2f (q : Rat) : String :=
  let m := roundHalfEven (q * 100)
  let n := m.natAbs
  (if m < 0 then "-" else "") ++ toString (n / 100) ++ "." ++
    toString (n % 100 / 10) ++ toString (n % 10)

/-! ## Python `float(str)` literal parsing

Models sign / digits / decimal point / exponent forms. Not modelled (no
claim depends on them): `inf` / `nan` literals and digit underscores. -/

def digitsToNat (ds : List Char) : Nat :=
  ds.foldl (fun acc c => acc * 10 + (c.toNat - 48)) 0

def pyParseFloat (s : String) : Option Rat :=
  let cs := trimEndsBy isPyWs s.toList
  let (sign, cs) : Rat × List Char :=
    match cs with
    | '-' :: tl => (-1, tl)
    | '+' :: tl => (1, tl)
    | _ => (1, cs)
  let intDs := cs.takeWhile isDig
  let rest1 := cs.dropWhile isDig
  let (fracDs, rest2) : List Char × List Char :=
    match rest1 with
    | '.' :: tl => (tl.takeWhile isDig, tl.dropWhile isDig)
    | _ => ([], rest1)
  if intDs.isEmpty ∧ fracDs.isEmpty then none
  else if rest1 ≠ [] ∧ rest1.head? ≠ some '.' ∧ ¬(rest1.head? = some 'e' ∨ rest1.head? = some 'E') then
    -- junk right after the integer digits that is neither '.' nor exponent
    none
  else
    let mant : Rat :=
      sign * ((digitsToNat intDs : Rat) + (digitsToNat fracDs : Rat) / (10 : Rat) ^ fracDs.length)
    match rest2 with
    | [] => some mant
    | 'e' :: tl | 'E' :: tl =>
      let (esign, tl) : Int × List Char :=
        match tl with
        | '-' :: tl2 => (-1, tl2)
        | '+' :: tl2 => (1, tl2)
        | _ => (1, tl)
      let eDs := tl.takeWhile isDig
      if eDs.isEmpty ∨ tl.dropWhile isDig ≠ [] then none
      else some (mant * (10 : Rat) ^ (esign * (digitsToNat eDs : Int)))
    | _ => none

/-! ## Cell values and parsed JSON sub-documents -/

/-- A parsed JSON value (result of `json.loads`). -/
inductive Jval where
  | jnull
  | jbool (b : Bool)
  | jnum (q : Rat)
  | jstr (s : String)
  | jarr (items : List Jval)
  | jobj (fields : List (String × Jval))

/-- Python `str()` of a loaded JSON value. Containers print as their dict /
list repr; that repr is opaque here (written "<doc>") — it is only ever fed
to substring heuristics that no claim exercises on nested documents. -/
def jvalStr : Jval → String
  | .jnull => "None"
  | .jbool b => if b then "True" else "False"
  | .jnum q => numStr q
  | .jstr s => s
  | .jarr _ => "<doc>"
  | .jobj _ => "<doc>"

/-- A workbook cell value: text, a number, or text carrying serialized JSON
(`pjson raw parsed`, with `parsed = none` when `json.loads` would fail). -/
inductive PyVal where
  | pstr (s : String)
  | pnum (q : Rat)
  | pjson (raw : String) (parsed : Option Jval)

/-- Python `str()` of a cell value. -/
def pyStr : PyVal → String
  | .pstr s => s
  | .pnum q => numStr q
  | .pjson raw _ => raw

abbrev Cell := Option PyVal

/-! ## `_clean` -/

/-- `_clean` on a string: strip, blank-to-None. -/
def clean (s : String) : Option String :=
  let t := pyStrip s
  if t = "" then none else some t

/-- `_clean` on an `Optional[str]`. -/
def cleanOpt (o : Option String) : Option String := o.bind clean

/-- `_clean` on a cell value (`None` stays `None`, else `str(v).strip()`). -/
def cleanCell (c : Cell) : Option String := c.bind (fun v => clean (pyStr v))

/-- `_clean` on a JSON value (`null` loads as Python `None`). -/
def cleanJ : Option Jval → Option String
  | none => none
  | some .jnull => none
  | some j => clean (jvalStr j)

/-! ## `_safe_float` -/

/-- The fallback regex of `_safe_float`: first match of
`([\d,]+(?:\.\d+)?)` — a leftmost maximal run of digits/commas, optionally
followed by `.digits`. -/
def matchNumAt (cs : List Char) : Option (List Char) :=
  let run := cs.takeWhile (fun c => isDig c || c = ',')
  if run.isEmpty then none
  else
    match cs.dropWhile (fun c => isDig c || c = ',') with
    | '.' :: r =>
      let ds := r.takeWhile isDig
      if ds.isEmpty then some run else some (run ++ '.' :: ds)
    | _ => some run

def searchNum : List Char → Option (List Char)
  | [] => none
  | c :: tl =>
    match matchNumAt (c :: tl) with
    | some g => some g
    | none => searchNum tl

/-- `_safe_float` on a string value: direct `float()` parse, else first
decimal-looking substring with commas removed, else `None`. -/
def safeFloatStr (s : String) : Option Rat :=
  if s = "" then none
  else
    match pyParseFloat s with
    | some q => some q
    | none =>
      match clean s with
      | none => none
      | some t =>
        match searchNum t.toList with
        | none => none
        | some g => pyParseFloat (String.mk (g.filter (fun c => c ≠ ',')))

/-- `_safe_float` on a cell. -/
def safe_float (c : Cell) : Option Rat :=
  match c with
  | none => none
  | some (.pnum q) => some q
  | some (.pstr s) => safeFloatStr s
  | some (.pjson raw _) => safeFloatStr raw

/-- `_safe_float` applied to a loaded JSON value. -/
def safeFloatJ : Option Jval → Option Rat
  | none => none
  | some .jnull => none
  | some (.jnum q) => some q
  | some (.jbool b) => some (if b then 1 else 0)
  | some (.jstr s) => safeFloatStr s
  | some j => safeFloatStr (jvalStr j)

/-! ## `_safe_json` -/

/-- `_safe_json` on a cell: `None`/blank → fallback; serialized JSON text
resolves to its parse result, any parse failure → fallback. A numeric cell
round-trips through `str` and loads as that number. -/
def safe_json (c : Cell) (fb : Jval) : Jval :=
  match c with
  | none => fb
  | some (.pnum q) => .jnum q
  | some (.pstr _) => fb  -- plain text: blank, or does not parse as JSON
  | some (.pjson raw parsed) =>
    match clean raw with
    | none => fb
    | some _ => parsed.getD fb

/-! ## Rows, sheets, workbooks -/

/-- A row as read by `_iter_sheet_rows`: header-name → cell value. -/
abbrev Row := List (String × Cell)

def rowGet (row : Row) (k : String) : Cell :=
  match row.find? (fun p => p.1 == k) with
  | some p => p.2
  | none => none

/-- One sheet: cleaned header names plus the data rows (physical rows 2..,
in order, empty rows included). -/
structure Sheet where
  header : List String
  rows : List Row

abbrev Workbook := List (String × Sheet)

def wbGet (wb : Workbook) (name : String) : Option Sheet :=
  (wb.find? (fun p => p.1 == name)).map Prod.snd

def numberFrom (n : Nat) : List α → List (Nat × α)
  | [] => []
  | x :: tl => (n, x) :: numberFrom (n + 1) tl

/-- A row is skipped when no cell cleans to a non-empty string. -/
def rowNonEmpty (row : Row) : Bool :=
  row.any (fun p => (cleanCell p.2).isSome)

/-- `_iter_sheet_rows`: physical rows numbered from 2, empty rows skipped. -/
def iter_sheet_rows (sh : Sheet) : List (Nat × Row) :=
  (numberFrom 2 sh.rows).filter (fun p => rowNonEmpty p.2)

/-! ## Field normalizers -/

/-- `_norm_throw`. -/
def norm_throw (v : Option String) : Option String :=
  let s := pyLower ((cleanOpt v).getD "")
  if s = "" then none
  else if strHasSub s "rht" || strHasSub s "right" then some "RHT"
  else if strHasSub s "lht" || strHasSub s "left" then some "LHT"
  else some "UNK"

/-- `_norm_position`. -/
def norm_position (v : Option String) : Option String :=
  let s := pyLower ((cleanOpt v).getD "")
  if s = "" then none
  else if strHasSub s "outfield" || s = "of" then some "OF"
  else if strHasSub s "infield" || s = "if" then some "IF"
  else if strHasSub s "pitch" then some "P"
  else if strHasSub s "catch" then some "C"
  else if strHasSub s "1b" || strHasSub s "first" then some "1B"
  else if strHasSub s "middle" || strHasSub s "ss" || strHasSub s "2b" then some "MI"
  else if strHasSub s "utility" then some "Utility"
  else cleanOpt v

/-! ## Size extraction regexes

Hand-compiled leftmost / greedy-with-backtracking matchers for the three
patterns of `_extract_size_in`. -/

/-- Tail of the decimal pattern after the leading digit group:
`\.\d{1,2}` (greedy). -/
def decTail (pre : List Char) (cs : List Char) : Option (List Char) :=
  match cs with
  | '.' :: d :: rest =>
    if isDig d then
      match rest with
      | e :: _ => if isDig e then some (pre ++ ['.', d, e]) else some (pre ++ ['.', d])
      | [] => some (pre ++ ['.', d])
    else none
  | _ => none

/-- `\d{1,2}\.\d{1,2}` anchored at the front (2-digit group first, then
backtrack to 1 digit). -/
def matchDecAt (cs : List Char) : Option (List Char) :=
  match cs with
  | a :: rest =>
    if isDig a then
      match rest with
      | b :: rest2 =>
        if isDig b then
          match decTail [a, b] rest2 with
          | some g => some g
          | none => decTail [a] rest
        else decTail [a] rest
      | [] => none
    else none
  | [] => none

/-- `re.search` of the decimal pattern: leftmost match. -/
def searchDec : List Char → Option (List Char)
  | [] => none
  | c :: tl =>
    match matchDecAt (c :: tl) with
    | some g => some g
    | none => searchDec tl

/-- After the separator of the fraction pattern: `(\d)\s*/\s*(\d)`. -/
def fracNumDen (cs : List Char) : Option (Char × Char) :=
  match cs with
  | d :: r =>
    if isDig d then
      match r.dropWhile isPyWs with
      | '/' :: r2 =>
        match r2.dropWhile isPyWs with
        | e :: _ => if isDig e then some (d, e) else none
        | [] => none
      | _ => none
    else none
  | [] => none

/-- The separator-and-tail of the fraction pattern:
`\s*[\-\s]\s*(\d)\s*/\s*(\d)`. Resolving the greedy `\s*` backtracking:
skip the maximal whitespace run; a following `-` is consumed (with more
whitespace after it), otherwise the run itself must be non-empty and the
numerator digit is next. -/
def fracSep (cs : List Char) : Option (Char × Char) :=
  let ws := cs.takeWhile isPyWs
  let rest := cs.dropWhile isPyWs
  match rest with
  | '-' :: r2 => fracNumDen (r2.dropWhile isPyWs)
  | _ => if ws.isEmpty then none else fracNumDen rest

/-- `(\d{1,2})\s*[\-\s]\s*(\d)\s*/\s*(\d)` anchored at the front. -/
def matchFracAt (cs : List Char) : Option (List Char × Char × Char) :=
  match cs with
  | a :: rest =>
    if isDig a then
      match rest with
      | b :: rest2 =>
        if isDig b then
          match fracSep rest2 with
          | some (d, e) => some ([a, b], d, e)
          | none =>
            match fracSep rest with
            | some (d, e) => some ([a], d, e)
            | none => none
        else
          match fracSep rest with
          | some (d, e) => some ([a], d, e)
          | none => none
      | [] => none
    else none
  | [] => none

def searchFrac : List Char → Option (List Char × Char × Char)
  | [] => none
  | c :: tl =>
    match matchFracAt (c :: tl) with
    | some g => some g
    | none => searchFrac tl

/-- Finish the quoted-inch pattern: `\s*\"`. -/
def quotClose (pre : List Char) (cs : List Char) : Option (List Char) :=
  match cs.dropWhile isPyWs with
  | '"' :: _ => some pre
  | _ => none

/-- Optional fractional part then closing quote: `(?:\.\d+)?\s*\"`. -/
def quotTail (pre : List Char) (cs : List Char) : Option (List Char) :=
  match cs with
  | '.' :: r =>
    let ds := r.takeWhile isDig
    if ds.isEmpty then quotClose pre cs
    else
      match quotClose (pre ++ '.' :: ds) (r.dropWhile isDig) with
      | some g => some g
      | none => quotClose pre cs
  | _ => quotClose pre cs

/-- `(\d{1,2}(?:\.\d+)?)\s*\"` anchored at the front. -/
def matchQuotAt (cs : List Char) : Option (List Char) :=
  match cs with
  | a :: rest =>
    if isDig a then
      match rest with
      | b :: rest2 =>
        if isDig b then
          match quotTail [a, b] rest2 with
          | some g => some g
          | none => quotTail [a] rest
        else quotTail [a] rest
      | [] => quotTail [a] []
    else none
  | [] => none

def searchQuot : List Char → Option (List Char)
  | [] => none
  | c :: tl =>
    match matchQuotAt (c :: tl) with
    | some g => some g
    | none => searchQuot tl

/-- Errors the Python code can raise. -/
inductive PyErr where
  | zeroDiv
  | keyError
  | attrError
  deriving DecidableEq

def digVal (c : Char) : Nat := c.toNat - 48

/-- `_extract_size_in`. The fraction branch computes
`float(whole) + float(num) / float(den)` with a bare Python division, which
raises `ZeroDivisionError` when the denominator digit is `0`. -/
def extract_size_in (text : Option String) : Except PyErr (Option Rat) :=
  match cleanOpt text with
  | none => .ok none
  | some s =>
    match searchDec s.toList with
    | some g => .ok (safeFloatStr (String.mk g))
    | none =>
      match searchFrac s.toList with
      | some (w, n, d) =>
        if digVal d = 0 then .error .zeroDiv
        else .ok (some ((digitsToNat w : Rat) + (digVal n : Rat) / (digVal d : Rat)))
      | none =>
        match searchQuot s.toList with
        | some g => .ok (safeFloatStr (String.mk g))
        | none => .ok none

/-! ## Brand / model / sport inference, images -/

def KNOWN_BRANDS : List String :=
  ["Wilson", "Rawlings", "Mizuno", "Easton", "Marucci", "Franklin",
   "Louisville Slugger", "Nike", "Nokona", "SSK", "Adidas", "All Star",
   "Akadema", "44 Pro"]

/-- `_infer_brand`. -/
def infer_brand (title explicit : Option String) : Option String :=
  match cleanOpt explicit with
  | some e => some e
  | none =>
    let t := pyLower ((cleanOpt title).getD "")
    KNOWN_BRANDS.find? (fun b => strHasSub t (pyLower b))

/-- Leftmost match of `\[Model:\s*([^\]]+)\]` (case-insensitive), returning
the capture. After the literal, the greedy `\s*` yields as little back as
needed so that the `[^\]]+` capture is non-empty. -/
def searchModelTag : List Char → Option (List Char)
  | [] => none
  | c :: tl =>
    let cs := c :: tl
    if listStartsWith (cs.map pyLowerChar) "[model:".toList then
      let afterTag := cs.drop 7
      let seg := afterTag.takeWhile (fun ch => ch ≠ ']')
      let hasClose := (afterTag.drop seg.length).head? = some ']'
      if hasClose ∧ seg.length ≥ 1 then
        let wsLen := (seg.takeWhile isPyWs).length
        some (seg.drop (min wsLen (seg.length - 1)))
      else searchModelTag tl
    else searchModelTag tl

def isCodeChar (c : Char) : Bool := ('A' ≤ c && c ≤ 'Z') || isDig c || c = '-'

/-- Leftmost match of `\(([A-Z0-9\-]{5,})\)\s*$`, returning the capture. -/
def searchTrailCode : List Char → Option (List Char)
  | [] => none
  | c :: tl =>
    (if c = '(' then
      let run := tl.takeWhile isCodeChar
      let rest := tl.drop run.length
      if run.length ≥ 5 ∧ rest.head? = some ')' ∧ (rest.drop 1).all isPyWs then
        some run
      else none
    else none).elim (searchTrailCode tl) some

/-- `_infer_model`. -/
def infer_model (title explicit : Option String) : Option String :=
  match cleanOpt explicit with
  | some e => some e
  | none =>
    match cleanOpt title with
    | none => none
    | some t =>
      match searchModelTag t.toList with
      | some g => clean (String.mk g)
      | none =>
        match searchTrailCode t.toList with
        | some g => clean (String.mk g)
        | none => none

/-- `_infer_sport`. -/
def infer_sport (title : Option String) (profile : List (String × Jval)) : String :=
  let title_l := pyLower ((cleanOpt title).getD "")
  let text := pyLower (String.intercalate " " (profile.map (fun p => jvalStr p.2)))
  let merged := title_l ++ " " ++ text
  if strHasSub merged "softball" || strHasSub merged "fastpitch" then "softball"
  else "baseball"

/-- `_norm_images`: keep non-empty string items with an HTTP(S) scheme,
deduplicated preserving first-seen order. -/
def norm_images (c : Cell) : List String :=
  match safe_json c (.jarr []) with
  | .jarr items =>
    (items.foldl
      (fun (acc : List String × List String) item =>
        match cleanJ (some item) with
        | none => acc
        | some u =>
          if ¬(u.startsWith "http://" ∨ u.startsWith "https://") then acc
          else if acc.1.contains u then acc
          else (acc.1 ++ [u], acc.2 ++ [u]))
      ([], [])).2
  | _ => []

/-! ## `_slug` -/

def slugChar (c : Char) : Bool := ('a' ≤ c && c ≤ 'z') || isDig c

/-- Map every non-`[a-z0-9]` character to a hyphen. -/
def dashify (cs : List Char) : List Char :=
  cs.map (fun c => if slugChar c then c else '-')

/-- Collapse adjacent hyphens (so that each maximal run of non-alphanumeric
characters becomes a single hyphen, as `re.sub(r"[^a-z0-9]+", "-", ·)`). -/
def squashDash : List Char → List Char
  | [] => []
  | [c] => [c]
  | a :: b :: tl =>
    if a = '-' ∧ b = '-' then squashDash (b :: tl) else a :: squashDash (b :: tl)

/-- `_slug`. -/
def slug (s : Option String) : String :=
  let raw := pyLower ((cleanOpt s).getD "unknown")
  let t := String.mk (trimEndsBy (fun c => c = '-') (squashDash (dashify raw.toList)))
  if t = "" then "unknown" else t

/-! ## Record classifier -/

def artifact_markers : List String :=
  ["custom", "one of one", "1/1", "game used", "player issued", "modified",
   "re-lace", "relace"]

/-- Python's `model_code and _clean(model_code) and _clean(model_code) !=
"Unknown"`: a non-empty, non-"Unknown" model code is present. -/
def modelCodeFlag (model_code : Option String) : Bool :=
  match model_code with
  | none => false
  | some mc =>
    if mc = "" then false
    else match clean mc with
         | none => false
         | some t => t ≠ "Unknown"

/-- `_record_type_from_listing`. -/
def record_type_from_listing (source : String) (condition model_code title : Option String) : String :=
  let text := pyLower (String.intercalate " "
    [source, condition.getD "", model_code.getD "", title.getD ""])
  if artifact_markers.any (fun m => strHasSub text m) then "artifact"
  else if modelCodeFlag model_code then "variant"
  else if pyUpper source = "JBG" ∨ pyUpper source = "JUSTBALLGLOVES" then "variant"
  else "artifact"

/-! ## Association-list helpers (Python `dict` with insertion order) -/

/-- `m[k] = v` on an insertion-ordered dict: replace in place, else append. -/
def upsert (m : List (String × α)) (k : String) (v : α) : List (String × α) :=
  match m with
  | [] => [(k, v)]
  | (k0, v0) :: tl => if k0 = k then (k0, v) :: tl else (k0, v0) :: upsert tl k v

/-- `m.get(k)`. -/
def assocGet (m : List (String × α)) (k : String) : Option α :=
  match m with
  | [] => none
  | (k0, v) :: tl => if k0 = k then some v else assocGet tl k

/-- `d[k] = d.get(k, 0) + 1`. -/
def bumpCount (m : List (String × Nat)) (k : String) : List (String × Nat) :=
  upsert m k ((assocGet m k).getD 0 + 1)

/-! ## `_build_spec_map` -/

def REQUIRED_SPEC_FIELDS : List String :=
  ["Item #", "Back", "Color", "Fit", "Leather", "Level", "Lining", "Padding",
   "Pattern", "Series", "Shell", "Size", "Special Feature", "Sport",
   "Throwing Hand", "Usage", "Used by", "Web", "Wrist", "Age Group",
   "Description"]

def build_spec_map (title description model_code : Option String)
    (size_in : Option Rat) (throw_hand sport web_type : Option String)
    (glove_profile spec_json : List (String × Jval)) :
    List (String × Option String) × List (String × Rat) :=
  let by_lower : List (String × String) :=
    (glove_profile ++ spec_json).foldl
      (fun m p =>
        match clean p.1, cleanJ (some p.2) with
        | some kk, some vv => upsert m (pyLower kk) vv
        | _, _ => m)
      []
  let from_any : List String → Option String := fun keys =>
    keys.findSome? (fun key => assocGet by_lower (pyLower key))
  let out : List (String × Option String) :=
    [("Item #", cleanOpt model_code),
     ("Back", from_any ["Back"]),
     ("Color", from_any ["Color"]),
     ("Fit", from_any ["Fit"]),
     ("Leather", from_any ["Leather"]),
     ("Level", from_any ["Level"]),
     ("Lining", from_any ["Lining"]),
     ("Padding", from_any ["Padding"]),
     ("Pattern", from_any ["Pattern"]),
     ("Series", from_any ["Series"]),
     ("Shell", from_any ["Shell"]),
     ("Size", from_any ["Size"] <|> size_in.map fmt2f),
     ("Special Feature", from_any ["Special Feature"]),
     ("Sport", from_any ["Sport"] <|> cleanOpt sport),
     ("Throwing Hand", from_any ["Throwing Hand"] <|> cleanOpt throw_hand),
     ("Usage", from_any ["Usage"]),
     ("Used by", from_any ["Used by"]),
     ("Web", from_any ["Web"] <|> cleanOpt web_type),
     ("Wrist", from_any ["Wrist"]),
     ("Age Group", from_any ["Age Group"]),
     ("Description", cleanOpt description <|> cleanOpt title)]
  let confidence : List (String × Rat) :=
    REQUIRED_SPEC_FIELDS.map (fun f =>
      (f, if ((assocGet out f).bind id).isSome then (23 / 25 : Rat) else 0))
  (out, confidence)

/-! ## Media key mapper -/

/-- Hex digit character for a value below 16. -/
def hexChar (n : Nat) : Char :=
  if n < 10 then Char.ofNat (48 + n) else Char.ofNat (87 + n)

def toHex8 (n : Nat) : String :=
  String.mk ((List.range 8).map (fun i => hexChar (n / 16 ^ (7 - i) % 16)))

/-- Stand-in for `hashlib.sha1(url).hexdigest()[:10]`: a deterministic
polynomial hash rendered as 10 hex characters. SHA-1 is not bit-modelled —
no claim depends on digest values, only on determinism. -/
def sha1Hex10 (s : String) : String :=
  let h1 := s.toList.foldl (fun a c => (a * 131 + c.toNat) % 4294967296) 5381
  let h2 := s.toList.foldl (fun a c => (a * 257 + c.toNat + 7) % 4294967296) 17
  (toHex8 h1 ++ toHex8 h2).take 10

def mimeTable : List (String × String) :=
  [(".jpg", "image/jpeg"), (".jpeg", "image/jpeg"), (".jpe", "image/jpeg"),
   (".png", "image/png"), (".gif", "image/gif"), (".webp", "image/webp"),
   (".bmp", "image/bmp"), (".tif", "image/tiff"), (".tiff", "image/tiff"),
   (".svg", "image/svg+xml")]

def extTable : List (String × String) :=
  [("image/jpeg", ".jpg"), ("image/png", ".png"), ("image/gif", ".gif"),
   ("image/webp", ".webp"), ("image/bmp", ".bmp"), ("image/tiff", ".tiff"),
   ("image/svg+xml", ".svg")]

/-- Suffix of the path component of a URL (`Path(urlparse(u).path).suffix`). -/
def pathSuffix (u : String) : String :=
  let afterScheme :=
    if strHasSub u "://" then
      String.mk ((u.toList.dropWhile (fun c => c ≠ ':')).drop 3)
    else u
  let path := afterScheme.toList.dropWhile (fun c => c ≠ '/')
  let name := (path.reverse.takeWhile (fun c => c ≠ '/')).reverse
  let extRev := name.reverse.takeWhile (fun c => c ≠ '.')
  if extRev.length = name.length then ""          -- no dot in the name
  else if extRev.length + 1 = name.length then "" -- the only dot is leading
  else String.mk ('.' :: extRev.reverse)

/-- `_guess_ext_and_ct`: content type from the URL suffix (query stripped),
default `image/jpeg`; extension from the content type, else the path
suffix, else `.jpg`. -/
def guess_ext_and_ct (url : String) : String × String :=
  let no_query := String.mk (url.toList.takeWhile (fun c => c ≠ '?'))
  let sfx := pathSuffix no_query
  let ct := ((mimeTable.find? (fun p => p.1 == pyLower sfx)).map Prod.snd).getD "image/jpeg"
  let ext0 :=
    match (extTable.find? (fun p => p.1 == ct)).map Prod.snd with
    | some e => e
    | none => if sfx ≠ "" then sfx else ".jpg"
  let ext := if ext0.startsWith "." then ext0 else "." ++ ext0
  (ext, ct)

/-- `f"{n:02d}"`. -/
def pad2 (n : Nat) : String := if n < 10 then "0" ++ toString n else toString n

/-- `_image_target_key`. -/
def image_target_key (keyPfx source listing_id : String) (index_1 : Nat)
    (image_url : String) : String × String :=
  let (ext, ct) := guess_ext_and_ct image_url
  (keyPfx ++ "/" ++ source ++ "/" ++ listing_id ++ "/" ++ pad2 index_1 ++ "_" ++
    sha1Hex10 image_url ++ ext, ct)

/-- `_stable_key`. -/
def stable_key (source listing_id : String) : String := source ++ ":" ++ listing_id

/-! ## Schema validator -/

structure ValidationResult where
  ok : Bool
  errors : List String
  warnings : List String

def REQUIRED_SHEETS : List (String × List String) :=
  [("Catalog",
    ["listing_id", "product_url", "title", "price", "currency", "condition",
     "brand", "model", "images_json", "normalized_json"]),
   ("JBG_Full_Catalog",
    ["product_id", "product_url", "source", "catalog_title", "catalog_price",
     "thumb_url", "catalog_scraped_at"]),
   ("JBG_Detail_Enrichment",
    ["product_id", "product_url", "detail_scraped_at", "detail_status",
     "detail_error", "title", "price", "model_code", "glove_profile_json",
     "description_snippet", "images_json", "spec_json"])]

/-- Row-level identity checks of one sheet: every non-empty row must have a
non-empty identity cell and a non-empty `product_url`. -/
def rowIdErrors (sheetName : String) (sh : Sheet) (idCol : String) : List String :=
  (numberFrom 2 sh.rows).foldl
    (fun errs p =>
      let r := p.1
      let row := p.2
      if rowNonEmpty row then
        errs ++
          (if (cleanCell (rowGet row idCol)).isNone then
            [sheetName ++ " row " ++ toString r ++ " missing " ++ idCol] else []) ++
          (if (cleanCell (rowGet row "product_url")).isNone then
            [sheetName ++ " row " ++ toString r ++ " missing product_url"] else [])
      else errs)
    []

/-- `validate_workbook`: fail fast on missing sheets/columns, otherwise
accumulate all row-level identity violations. -/
def validate_workbook (wb : Workbook) : ValidationResult :=
  let structural :=
    REQUIRED_SHEETS.foldl
      (fun errs p =>
        match wbGet wb p.1 with
        | none => errs ++ ["Missing required sheet: " ++ p.1]
        | some sh =>
          errs ++ p.2.filterMap (fun col =>
            if sh.header.contains col then none
            else some ("Sheet " ++ p.1 ++ " missing required column: " ++ col)))
      []
  if structural ≠ [] then ⟨false, structural, []⟩
  else
    let es :=
      rowIdErrors "Catalog" ((wbGet wb "Catalog").getD ⟨[], []⟩) "listing_id" ++
      rowIdErrors "JBG_Full_Catalog" ((wbGet wb "JBG_Full_Catalog").getD ⟨[], []⟩) "product_id" ++
      rowIdErrors "JBG_Detail_Enrichment" ((wbGet wb "JBG_Detail_Enrichment").getD ⟨[], []⟩) "product_id"
    ⟨es.isEmpty, es, []⟩

/-! ## Output record types -/

structure Listing where
  listing_pk : String
  glove_id : String
  record_type : String
  source : String
  source_listing_id : String
  url : String
  title : Option String
  canonical_name : String
  brand : String
  model : String
  model_code : String
  size_in : Option Rat
  hand : String
  throw_hand : String
  player_position : String
  position : String
  web_type : String
  sport : String
  condition : String
  price : Option Rat
  currency : String
  created_at : Option String
  seen_at : Option String
  item_number : Option String
  pattern : Option String
  series : Option String
  level : Option String
  age_group : Option String
  market_origin : Option String
  raw_specs : List (String × Jval)
  spec_fields_raw : List (String × Option String)
  normalized_specs : List (String × String)
  normalized_confidence : List (String × Rat)
  raw_html : Option String
  raw_text : Option String
  images : List String

structure RawRow where
  listing_pk : String
  source : String
  source_sheet : String
  source_row : Nat
  source_columns : Row
  parsed_normalized_json : Option Jval
  catalog_columns : Option Row
  parsed_glove_profile_json : Option Jval
  parsed_spec_json : Option Jval
  raw_html : Option String
  raw_text : Option String

structure MediaMapping where
  image_index : Nat
  source_url : String
  target_storage_key : String
  content_type : String
  mapping_key : String

structure MediaRow where
  listing_pk : String
  source : String
  source_listing_id : String
  ordered_image_urls : List String
  image_mappings : List MediaMapping

structure RowsScanned where
  catalog : Nat
  jbg_full_catalog : Nat
  jbg_detail_enrichment : Nat
  deriving DecidableEq

structure OutputFiles where
  normalized : String
  raw : Option String
  manifest : String
  deriving DecidableEq

structure Report where
  generated_at : String
  input_xlsx : String
  rows_scanned : RowsScanned
  listings_total : Nat
  listings_by_source : List (String × Nat)
  listings_by_record_type : List (String × Nat)
  media_manifest_rows : Nat
  media_manifest_images_total : Nat
  errors_count : Nat
  errors : List String
  warnings_count : Nat
  warnings : List String
  defaults_applied : List (String × Nat)
  output_files : Option OutputFiles
  deriving DecidableEq

/-- Accumulator shared by the two sheet-processing loops. -/
structure BState where
  listings : List Listing
  raw_rows : List RawRow
  errors : List String
  defaults : List (String × Nat)

/-! ## JBG catalog index -/

structure CatRec where
  sheet : String
  row : Nat
  product_url : Option String
  source : String
  catalog_title : Option String
  catalog_price : Option Rat
  thumb_url : Option String
  catalog_scraped_at : Option String
  raw : Row

/-- `_build_jbg_catalog_index`: index of catalog rows keyed by `product_id`
(later rows overwrite earlier ones). -/
def build_jbg_catalog_index (sh : Sheet) : List (String × CatRec) :=
  (iter_sheet_rows sh).foldl
    (fun out p =>
      match cleanCell (rowGet p.2 "product_id") with
      | none => out
      | some pid =>
        upsert out pid
          { sheet := "JBG_Full_Catalog"
            row := p.1
            product_url := cleanCell (rowGet p.2 "product_url")
            source := (cleanCell (rowGet p.2 "source")).getD "JBG"
            catalog_title := cleanCell (rowGet p.2 "catalog_title")
            catalog_price := safe_float (rowGet p.2 "catalog_price")
            thumb_url := cleanCell (rowGet p.2 "thumb_url")
            catalog_scraped_at := cleanCell (rowGet p.2 "catalog_scraped_at")
            raw := p.2 })
    []

/-- `.get(k)` on a loaded JSON value that must be a dict: raises
(`AttributeError`) on any non-dict, as Python does. -/
def jobjGet (j : Jval) (k : String) : Except PyErr (Option Jval) :=
  match j with
  | .jobj fs => .ok (assocGet fs k)
  | _ => .error .attrError

/-! ## SS / Catalog sheet processing (one row) -/

def jobjFields : Jval → List (String × Jval)
  | .jobj fs => fs
  | _ => []

def isJobj : Jval → Bool
  | .jobj _ => true
  | _ => false

/-- One row of the `Catalog` (SS) sheet, appended onto the accumulator.
`Except` because `norm_obj.get("title")` is reached unguarded when the row
has no title and the parsed `normalized_json` carries a non-dict under
`"norm"`. -/
def ss_catalog_step (st : BState) (rr : Nat × Row) : Except PyErr BState := do
  let r := rr.1
  let row := rr.2
  match cleanCell (rowGet row "listing_id"), cleanCell (rowGet row "product_url") with
  | some listing_id, some url =>
    let norm := safe_json (rowGet row "normalized_json") (.jobj [])
    let norm_raw : Jval :=
      match norm with
      | .jobj fs => (assocGet fs "raw").getD (.jobj [])
      | _ => .jobj []
    let norm_obj : Jval :=
      match norm with
      | .jobj fs => (assocGet fs "norm").getD (.jobj [])
      | _ => .jobj []
    let title ←
      match cleanCell (rowGet row "title") with
      | some t => pure (some t)
      | none => do
        let tv ← jobjGet norm_obj "title"
        pure (cleanJ tv)
    let brand := infer_brand title (cleanCell (rowGet row "brand"))
    let model := infer_model title (cleanCell (rowGet row "model"))
    let size_in := if isJobj norm_obj then safeFloatJ (assocGet (jobjFields norm_obj) "size_in") else none
    let throw_hand := norm_throw (if isJobj norm_obj then cleanJ (assocGet (jobjFields norm_obj) "throw_hand") else none)
    let position := norm_position (if isJobj norm_obj then cleanJ (assocGet (jobjFields norm_obj) "position") else none)
    let web_type := if isJobj norm_obj then cleanJ (assocGet (jobjFields norm_obj) "web") else none
    let description := if isJobj norm_obj then cleanJ (assocGet (jobjFields norm_obj) "description") else none
    let record_type := record_type_from_listing "SS" (cleanCell (rowGet row "condition")) model title
    let canonical_name :=
      let joined := pyStrip (String.intercalate " " ([brand, model, size_in.map fmt2f].filterMap id))
      if joined = "" then title.getD "Unknown" else joined
    let glove_id :=
      if record_type = "variant" then
        "variant:" ++ slug brand ++ ":" ++ slug model ++ ":" ++
          slug (some (match size_in with | some q => floatStr q | none => "na")) ++ ":" ++
          slug (some (throw_hand.getD "unk"))
      else "artifact:SS:" ++ listing_id
    let sport := infer_sport title []
    let sp := build_spec_map title description model size_in throw_hand (some sport)
      web_type [] (if isJobj norm_raw then jobjFields norm_raw else [])
    let defaults1 := if brand.isNone then bumpCount st.defaults "brand_unknown" else st.defaults
    let defaults2 := if model.isNone then bumpCount defaults1 "model_unknown" else defaults1
    let images := norm_images (rowGet row "images_json")
    let listing : Listing :=
      { listing_pk := stable_key "SS" listing_id
        glove_id := glove_id
        record_type := record_type
        source := "SS"
        source_listing_id := listing_id
        url := url
        title := title
        canonical_name := canonical_name
        brand := brand.getD "Unknown"
        model := model.getD "Unknown"
        model_code := model.getD "Unknown"
        size_in := size_in
        hand := throw_hand.getD "UNK"
        throw_hand := throw_hand.getD "UNK"
        player_position := position.getD "Unknown"
        position := position.getD "Unknown"
        web_type := web_type.getD "Unknown"
        sport := sport
        condition := (cleanCell (rowGet row "condition")).getD "Unknown"
        price := safe_float (rowGet row "price")
        currency := (cleanCell (rowGet row "currency")).getD "USD"
        created_at := none
        seen_at := none
        item_number := model
        pattern := if isJobj norm_obj then cleanJ (assocGet (jobjFields norm_obj) "pattern") else none
        series := if isJobj norm_obj then cleanJ (assocGet (jobjFields norm_obj) "series") else none
        level := if isJobj norm_obj then cleanJ (assocGet (jobjFields norm_obj) "level") else none
        age_group := if isJobj norm_obj then cleanJ (assocGet (jobjFields norm_obj) "age_group") else none
        market_origin := none
        raw_specs := if isJobj norm_raw then jobjFields norm_raw else []
        spec_fields_raw := sp.1
        normalized_specs := sp.1.filterMap (fun p => p.2.map (fun v => (p.1, v)))
        normalized_confidence := sp.2
        raw_html := none
        raw_text := title
        images := images }
    let raw : RawRow :=
      { listing_pk := listing.listing_pk
        source := "SS"
        source_sheet := "Catalog"
        source_row := r
        source_columns := row
        parsed_normalized_json := some norm
        catalog_columns := none
        parsed_glove_profile_json := none
        parsed_spec_json := none
        raw_html := none
        raw_text := title }
    pure { st with
      listings := st.listings ++ [listing]
      raw_rows := st.raw_rows ++ [raw]
      defaults := defaults2 }
  | _, _ =>
    pure { st with
      errors := st.errors ++ ["Catalog row " ++ toString r ++ " missing listing_id/product_url"] }

/-! ## JBG detail sheet processing (one row) -/

/-- The glove-profile key scan: first non-empty value for the size / throw /
position / web key families, in dict insertion order. -/
def profileScan (prof : List (String × Jval)) :
    Option String × Option String × Option String × Option String :=
  prof.foldl
    (fun acc p =>
      let lk := pyLower ((clean p.1).getD "")
      let v := cleanJ (some p.2)
      let sz := if strHasSub lk "size" ∧ acc.1.isNone then v else acc.1
      let th := if (strHasSub lk "throw" ∨ strHasSub lk "hand") ∧ acc.2.1.isNone then v else acc.2.1
      let po := if strHasSub lk "position" ∧ acc.2.2.1.isNone then v else acc.2.2.1
      let we := if strHasSub lk "web" ∧ acc.2.2.2.isNone then v else acc.2.2.2
      (sz, th, po, we))
    (none, none, none, none)

/-- `_extract_size_in(size_text) or _extract_size_in(title)` — Python `or`
falls through on `None` and on a falsy `0.0`. -/
def size_or (size_text title : Option String) : Except PyErr (Option Rat) := do
  let a ← extract_size_in size_text
  match a with
  | some q => if q = 0 then extract_size_in title else pure (some q)
  | none => extract_size_in title

/-- Everything the JBG detail row produces once the (possibly raising) size
extraction has returned: the listing, its raw row, and the updated
defaults counters. -/
def jbg_row_out (idx : List (String × CatRec)) (st : BState) (r : Nat) (row : Row)
    (pid url : String) (size_in : Option Rat) : BState :=
  let cat := assocGet idx pid
  let source := (cleanOpt (cat.map (·.source))).getD "JBG"
  let glove_profile := safe_json (rowGet row "glove_profile_json") (.jobj [])
  let spec_json := safe_json (rowGet row "spec_json") (.jobj [])
  let title := cleanCell (rowGet row "title") <|> cleanOpt (cat.bind (·.catalog_title))
  let price0 := safe_float (rowGet row "price")
  let priced :=
    match price0 with
    | some p => (some p, st.defaults)
    | none =>
      match cat.bind (·.catalog_price) with
      | some cp => (some cp, bumpCount st.defaults "price_from_catalog")
      | none => (none, st.defaults)
  let price := priced.1
  let brand := infer_brand title none
  let model_code := cleanCell (rowGet row "model_code") <|> infer_model title none
  let model := model_code <|> infer_model title none
  let prof := if isJobj glove_profile then jobjFields glove_profile else []
  let scan := profileScan prof
  let throw_text := scan.2.1
  let pos_text := scan.2.2.1
  let web_text := scan.2.2.2
  let throw_hand := norm_throw throw_text
      let position := norm_position pos_text
      let defaults1 := if brand.isNone then bumpCount priced.2 "brand_unknown" else priced.2
      let defaults2 := if model.isNone then bumpCount defaults1 "model_unknown" else defaults1
      let images := norm_images (rowGet row "images_json")
      let description := cleanCell (rowGet row "description_snippet")
      let sport := infer_sport title prof
      let condition := if source = "JBG" then "New" else "Unknown"
      let record_type := record_type_from_listing source (some condition) model_code title
      let canonical_name :=
        let joined := pyStrip (String.intercalate " "
          ([brand, model_code <|> model, size_in.map fmt2f].filterMap id))
        if joined = "" then title.getD "Unknown" else joined
      let glove_id :=
        if record_type = "variant" then
          "variant:" ++ slug brand ++ ":" ++ slug (model_code <|> model) ++ ":" ++
            slug (some (match size_in with | some q => floatStr q | none => "na")) ++ ":" ++
            slug (some (throw_hand.getD "unk"))
        else "artifact:" ++ source ++ ":" ++ pid
      let sp := build_spec_map title description (model_code <|> model) size_in throw_hand
        (some sport) web_text prof (if isJobj spec_json then jobjFields spec_json else [])
      let listing : Listing :=
        { listing_pk := stable_key source pid
          glove_id := glove_id
          record_type := record_type
          source := source
          source_listing_id := pid
          url := url
          title := title
          canonical_name := canonical_name
          brand := brand.getD "Unknown"
          model := model.getD "Unknown"
          model_code := model_code.getD "Unknown"
          size_in := size_in
          hand := throw_hand.getD "UNK"
          throw_hand := throw_hand.getD "UNK"
          player_position := position.getD "Unknown"
          position := position.getD "Unknown"
          web_type := web_text.getD "Unknown"
          sport := sport
          condition := condition
          price := price
          currency := "USD"
          created_at := cleanOpt (cat.bind (·.catalog_scraped_at))
          seen_at := cleanCell (rowGet row "detail_scraped_at")
          item_number := model_code
          pattern := if isJobj glove_profile then cleanJ (assocGet prof "pattern") else none
          series := if isJobj glove_profile then cleanJ (assocGet prof "series") else none
          level := if isJobj glove_profile then cleanJ (assocGet prof "level") else none
          age_group := if isJobj glove_profile then cleanJ (assocGet prof "age_group") else none
          market_origin := if isJobj glove_profile then cleanJ (assocGet prof "country") else none
          raw_specs :=
            [("glove_profile", .jobj prof),
             ("spec_json", .jobj (if isJobj spec_json then jobjFields spec_json else []))]
          spec_fields_raw := sp.1
          normalized_specs := sp.1.filterMap (fun p => p.2.map (fun v => (p.1, v)))
          normalized_confidence := sp.2
          raw_html := none
          raw_text := description <|> title
          images := images }
      let raw : RawRow :=
        { listing_pk := listing.listing_pk
          source := source
          source_sheet := "JBG_Detail_Enrichment"
          source_row := r
          source_columns := row
          parsed_normalized_json := none
          catalog_columns := some ((cat.map (·.raw)).getD [])
          parsed_glove_profile_json := some glove_profile
          parsed_spec_json := some spec_json
          raw_html := none
          raw_text := description <|> title }
      { st with
        listings := st.listings ++ [listing]
        raw_rows := st.raw_rows ++ [raw]
        defaults := defaults2 }

/-- One row of the `JBG_Detail_Enrichment` sheet, reconciled against the
catalog index. `Except` because `_extract_size_in` can raise on a
zero-denominator mixed fraction. -/
def jbg_detail_step (idx : List (String × CatRec)) (st : BState) (rr : Nat × Row) :
    Except PyErr BState := do
  let r := rr.1
  let row := rr.2
  match cleanCell (rowGet row "product_id") with
  | none =>
    pure { st with
      errors := st.errors ++ ["JBG_Detail_Enrichment row " ++ toString r ++ " missing product_id"] }
  | some pid =>
    let detail_url := cleanCell (rowGet row "product_url")
    let cat := assocGet idx pid
    match detail_url <|> cleanOpt (cat.bind (·.product_url)) with
    | none =>
      pure { st with
        errors := st.errors ++ ["JBG listing " ++ pid ++ " missing URL in catalog+detail"] }
    | some url =>
      let glove_profile := safe_json (rowGet row "glove_profile_json") (.jobj [])
      let title := cleanCell (rowGet row "title") <|> cleanOpt (cat.bind (·.catalog_title))
      let prof := if isJobj glove_profile then jobjFields glove_profile else []
      let size_in ← size_or (profileScan prof).1 title
      pure (jbg_row_out idx st r row pid url size_in)

/-! ## Deduplicate (last writer wins) and sort -/

/-- `dedup[x.key] = x` over the whole list, in order (Python dict build). -/
def dedupByKey (key : α → String) (xs : List α) : List (String × α) :=
  xs.foldl (fun m x => upsert m (key x) x) []

/-- `[dedup[k] for k in sorted(dedup.keys())]`. -/
def sortedVals (m : List (String × α)) : List α :=
  ((m.map Prod.fst).insertionSort (· ≤ ·)).filterMap (assocGet m)

/-! ## `build_exports` -/

structure Exports where
  listings : List Listing
  raw_rows : List RawRow
  media_manifest : List MediaRow
  report : Report

def expectSheet : Option Sheet → Except PyErr Sheet
  | some s => .ok s
  | none => .error .keyError

/-- The two sheet loops of `build_exports`: all listings and raw rows in
source-then-row order, with the shared error list and defaults counters. -/
def collect_rows (wb : Workbook) : Except PyErr BState := do
  let wsSS ← expectSheet (wbGet wb "Catalog")
  let st1 ← (iter_sheet_rows wsSS).foldlM ss_catalog_step ⟨[], [], [], []⟩
  let wsJC ← expectSheet (wbGet wb "JBG_Full_Catalog")
  let idx := build_jbg_catalog_index wsJC
  let wsJD ← expectSheet (wbGet wb "JBG_Detail_Enrichment")
  (iter_sheet_rows wsJD).foldlM (jbg_detail_step idx) st1

/-- The media-manifest row of one retained listing. -/
def mkMediaRow (pfx : String) (l : Listing) : MediaRow :=
  { listing_pk := l.listing_pk
    source := l.source
    source_listing_id := l.source_listing_id
    ordered_image_urls := l.images
    image_mappings :=
      (numberFrom 1 l.images).map (fun p =>
        let kc := image_target_key pfx l.source l.source_listing_id p.1 p.2
        { image_index := p.1
          source_url := p.2
          target_storage_key := kc.1
          content_type := kc.2
          mapping_key := l.source ++ ":" ++ l.source_listing_id ++ ":" ++ toString p.1 }) }

/-- `build_exports`. `now` is the value `_now_iso()` returns when the run
report is generated (the wall clock is an input of the model). -/
def build_exports (xlsx : String) (wb : Workbook) (b2p : String) (now : String) :
    Except PyErr Exports := do
  let st ← collect_rows wb
  let rows_scanned : RowsScanned :=
    { catalog := ((wbGet wb "Catalog").map (fun s => (iter_sheet_rows s).length)).getD 0
      jbg_full_catalog := ((wbGet wb "JBG_Full_Catalog").map (fun s => (iter_sheet_rows s).length)).getD 0
      jbg_detail_enrichment := ((wbGet wb "JBG_Detail_Enrichment").map (fun s => (iter_sheet_rows s).length)).getD 0 }
  let listings_sorted := sortedVals (dedupByKey (fun l => l.listing_pk) st.listings)
  let raw_sorted := sortedVals (dedupByKey (fun rr => rr.listing_pk) st.raw_rows)
  let pfx0 := if b2p = "" then "gloveiq" else b2p
  let pfx := String.mk (trimEndsBy (fun c => c = '/') (trimEndsBy isPyWs pfx0.toList))
  let media_rows := listings_sorted.map (mkMediaRow pfx)
  let image_total := (listings_sorted.map (fun l => l.images.length)).sum
  let by_source_final := listings_sorted.foldl
    (fun m l => bumpCount m (if l.source = "" then "Unknown" else l.source)) []
  let by_record_type := listings_sorted.foldl
    (fun m l => bumpCount m (if l.record_type = "" then "artifact" else l.record_type)) []
  pure
    { listings := listings_sorted
      raw_rows := raw_sorted
      media_manifest := media_rows
      report :=
        { generated_at := now
          input_xlsx := xlsx
          rows_scanned := rows_scanned
          listings_total := listings_sorted.length
          listings_by_source := by_source_final
          listings_by_record_type := by_record_type
          media_manifest_rows := media_rows.length
          media_manifest_images_total := image_total
          errors_count := st.errors.length
          errors := st.errors.take 500
          warnings_count := 0
          warnings := []
          defaults_applied := st.defaults
          output_files := none } }

/-! ## `run_import` and the checkpoint manager

The filesystem is modelled as the five output slots, holding structured
content (`none` = file absent). `os.stat` of the input happens outside the
model: the current fingerprint is an input. -/

structure Fingerprint where
  path : String
  size : Nat
  mtime : Int
  deriving DecidableEq

structure Checkpoint where
  generated_at : String
  input_fingerprint : Fingerprint
  listings_count : Nat
  media_rows_count : Nat

structure FS where
  checkpoint : Option (Option Checkpoint)
  -- ^ outer: file exists; inner: parses as a JSON object (`_safe_json`
  --   failure or a non-dict reads back as no usable checkpoint)
  normalized : Option (List Listing)
  rawFile : Option (List RawRow)
  media : Option (List MediaRow)
  report : Option Report

/-- `run_import`: checkpoint short-circuit, validation gate, export, atomic
writes, checkpoint persist. Returns the process exit code and the final
filesystem state. -/
def run_import (wb : Workbook) (xlsx : String) (fp : Fingerprint) (out_dir : String)
    (b2p : String) (emit_raw resume force : Bool) (now : String) (fs : FS) :
    Except PyErr (Int × FS) :=
  let fingerprintMatches : Bool :=
    match fs.checkpoint with
    | some (some cp) => cp.input_fingerprint = fp
    | _ => false
  if resume && !force && fs.checkpoint.isSome && fs.normalized.isSome &&
      fs.media.isSome && fs.report.isSome && fingerprintMatches then
    .ok (0, fs)
  else
    let v := validate_workbook wb
    if ¬v.ok then .ok (2, fs)
    else do
      let e ← build_exports xlsx wb b2p now
      let reportOut : Report :=
        { e.report with
          output_files := some
            { normalized := out_dir ++ "/listings.normalized.jsonl"
              raw := if emit_raw then some (out_dir ++ "/listings.raw.jsonl") else none
              manifest := out_dir ++ "/media_manifest.jsonl" } }
      .ok (0,
        { checkpoint := some (some
            { generated_at := now
              input_fingerprint := fp
              listings_count := e.listings.length
              media_rows_count := e.media_manifest.length })
          normalized := some e.listings
          rawFile := if emit_raw then some e.raw_rows else fs.rawFile
          media := some e.media_manifest
          report := some reportOut })

/-! ## Decidability and default helpers -/

instance instExceptDecEq {ε α : Type} [DecidableEq ε] [DecidableEq α] :
    DecidableEq (Except ε α) := fun a b =>
  match a, b with
  | .ok x, .ok y =>
    if h : x = y then .isTrue (by rw [h])
    else .isFalse (by intro hc; cases hc; exact h rfl)
  | .error x, .error y =>
    if h : x = y then .isTrue (by rw [h])
    else .isFalse (by intro hc; cases hc; exact h rfl)
  | .ok _, .error _ => .isFalse (by intro hc; cases hc)
  | .error _, .ok _ => .isFalse (by intro hc; cases hc)

/-- Extract the success value, with an explicit default. -/
def okOr (x : Except PyErr β) (d : β) : β :=
  match x with
  | .ok v => v
  | .error _ => d

def emptyB : BState := ⟨[], [], [], []⟩

def emptyReport : Report :=
  { generated_at := ""
    input_xlsx := ""
    rows_scanned := ⟨0, 0, 0⟩
    listings_total := 0
    listings_by_source := []
    listings_by_record_type := []
    media_manifest_rows := 0
    media_manifest_images_total := 0
    errors_count := 0
    errors := []
    warnings_count := 0
    warnings := []
    defaults_applied := []
    output_files := none }

def emptyExports : Exports := ⟨[], [], [], emptyReport⟩

/-! ## Well-formed slugs -/

def isSlugChar (c : Char) : Bool := slugChar c || c = '-'

/-- No two adjacent hyphens. -/
def noDashPair : List Char → Bool
  | [] => true
  | [_] => true
  | a :: b :: tl => if a = '-' ∧ b = '-' then false else noDashPair (b :: tl)

/-- A well-formed slug: non-empty, only lowercase alphanumerics and single
separating hyphens, no leading or trailing hyphen. -/
def isSlug (s : String) : Bool :=
  let cs := s.toList
  !cs.isEmpty && cs.all isSlugChar && cs.head? != some '-' &&
    cs.getLast? != some '-' && noDashPair cs

/-- Split on a separator character (the groups between separators). -/
def splitOnChar (sep : Char) : List Char → List (List Char)
  | [] => [[]]
  | a :: tl =>
    match splitOnChar sep tl with
    | [] => [[]]
    | g :: gs => if a = sep then [] :: g :: gs else (a :: g) :: gs

/-- The colon-separated components of a `glove_id`. -/
def gloveIdParts (s : String) : List String :=
  (splitOnChar ':' s.toList).map String.mk

/-! ## Concrete inputs used by witnesses and counterexamples -/

def hdrSS : List String :=
  ["listing_id", "product_url", "title", "price", "currency", "condition",
   "brand", "model", "images_json", "normalized_json"]

def hdrJC : List String :=
  ["product_id", "product_url", "source", "catalog_title", "catalog_price",
   "thumb_url", "catalog_scraped_at"]

def hdrJD : List String :=
  ["product_id", "product_url", "detail_scraped_at", "detail_status",
   "detail_error", "title", "price", "model_code", "glove_profile_json",
   "description_snippet", "images_json", "spec_json"]

/-- A structurally valid workbook with no data rows. -/
def wbW : Workbook :=
  [("Catalog", ⟨hdrSS, []⟩), ("JBG_Full_Catalog", ⟨hdrJC, []⟩),
   ("JBG_Detail_Enrichment", ⟨hdrJD, []⟩)]

/-- Two SS rows resolving to the same `listing_pk` `"SS:A1"`. -/
def rowDupA : Row :=
  [("listing_id", some (.pstr "A1")), ("product_url", some (.pstr "https://s/1")),
   ("title", some (.pstr "First"))]

def rowDupB : Row :=
  [("listing_id", some (.pstr "A1")), ("product_url", some (.pstr "https://s/2")),
   ("title", some (.pstr "Second"))]

def wbDup : Workbook :=
  [("Catalog", ⟨hdrSS, [rowDupA, rowDupB]⟩), ("JBG_Full_Catalog", ⟨hdrJC, []⟩),
   ("JBG_Detail_Enrichment", ⟨hdrJD, []⟩)]

/-- A JBG detail row whose glove profile carries the size text "12 3/0"
(mixed fraction with a zero denominator). -/
def rowC4 : Row :=
  [("product_id", some (.pstr "Z1")), ("product_url", some (.pstr "https://j/z1")),
   ("glove_profile_json",
    some (.pjson "sz" (some (.jobj [("Size", .jstr "12 3/0")]))))]

def wbC4 : Workbook :=
  [("Catalog", ⟨hdrSS, []⟩), ("JBG_Full_Catalog", ⟨hdrJC, []⟩),
   ("JBG_Detail_Enrichment", ⟨hdrJD, [rowC4]⟩)]

/-- An SS row with no model and no marker text: classified `artifact`. -/
def rowC10 : Row :=
  [("listing_id", some (.pstr "X1")), ("product_url", some (.pstr "https://s/x"))]

def wbC10 : Workbook :=
  [("Catalog", ⟨hdrSS, [rowC10]⟩), ("JBG_Full_Catalog", ⟨hdrJC, []⟩),
   ("JBG_Detail_Enrichment", ⟨hdrJD, []⟩)]

/-- A detail row with a product id but no URL and no price of its own. -/
def rowC9 : Row := [("product_id", some (.pstr "P1"))]

/-- Its catalog counterpart: supplies the URL, no price. -/
def catC9 : CatRec :=
  { sheet := "JBG_Full_Catalog"
    row := 2
    product_url := some "https://cat/u1"
    source := "JBG"
    catalog_title := none
    catalog_price := none
    thumb_url := none
    catalog_scraped_at := none
    raw := [] }

def idxC9 : List (String × CatRec) := [("P1", catC9)]

/-- A detail row with its own URL but no price. -/
def rowC9p : Row :=
  [("product_id", some (.pstr "P1")), ("product_url", some (.pstr "https://d/u"))]

/-- A catalog counterpart that supplies a price. -/
def catC9p : CatRec :=
  { sheet := "JBG_Full_Catalog"
    row := 2
    product_url := some "https://cat/u2"
    source := "JBG"
    catalog_title := none
    catalog_price := some 25
    thumb_url := none
    catalog_scraped_at := none
    raw := [] }

def idxC9p : List (String × CatRec) := [("P1", catC9p)]

/-- A detail row with its own URL whose product id has no catalog row. -/
def rowC9m : Row :=
  [("product_id", some (.pstr "P9")), ("product_url", some (.pstr "https://d/m"))]

def fpW : Fingerprint := ⟨"/in.xlsx", 1024, 1700000000⟩

def cpW : Checkpoint := ⟨"T0", fpW, 0, 0⟩

/-- All outputs present, checkpoint fingerprint matching. -/
def fsSkip : FS :=
  { checkpoint := some (some cpW)
    normalized := some []
    rawFile := some []
    media := some []
    report := some emptyReport }

/-- Checkpoint present and matching, but the normalized output is missing. -/
def fsMiss : FS :=
  { checkpoint := some (some cpW)
    normalized := none
    rawFile := some []
    media := some []
    report := some emptyReport }

/-! ## Lemmas: insertion-ordered dicts -/

theorem assocGet_upsert {α : Type} (m : List (String × α)) (k' : String) (v : α) (k : String) :
    assocGet (upsert m k' v) k = if k' = k then some v else assocGet m k := by
  induction m with
  | nil => simp [upsert, assocGet]
  | cons p tl ih =>
    obtain ⟨k0, v0⟩ := p
    by_cases h1 : k0 = k'
    · subst h1
      by_cases h2 : k0 = k
      · subst h2; simp [upsert, assocGet]
      · simp [upsert, assocGet, h2]
    · by_cases h2 : k0 = k
      · subst h2
        have h1s : k' ≠ k0 := fun h => h1 h.symm
        simp [upsert, assocGet, h1, h1s]
      · simp [upsert, assocGet, h1, h2, ih]

theorem keys_upsert {α : Type} (m : List (String × α)) (k : String) (v : α) :
    (upsert m k v).map Prod.fst =
      if k ∈ m.map Prod.fst then m.map Prod.fst else m.map Prod.fst ++ [k] := by
  induction m with
  | nil => simp [upsert]
  | cons p tl ih =>
    obtain ⟨k0, v0⟩ := p
    by_cases h1 : k0 = k
    · subst h1; simp [upsert]
    · have h1s : k ≠ k0 := fun h => h1 h.symm
      by_cases h2 : k ∈ tl.map Prod.fst
      · simp [upsert, h1, ih, h1s, h2]
      · simp [upsert, h1, ih, h1s, h2]

theorem mem_upsert {α : Type} {p : String × α} {m : List (String × α)} {k : String} {v : α}
    (h : p ∈ upsert m k v) : p ∈ m ∨ p = (k, v) := by
  induction m with
  | nil => simpa [upsert] using h
  | cons q tl ih =>
    obtain ⟨k0, v0⟩ := q
    by_cases h1 : k0 = k
    · subst h1
      simp only [upsert, if_pos rfl] at h
      rcases List.mem_cons.1 h with h | h
      · right; exact h
      · left; exact List.mem_cons_of_mem _ h
    · simp only [upsert, if_neg h1] at h
      rcases List.mem_cons.1 h with h | h
      · left; exact h ▸ List.mem_cons_self _ _
      · rcases ih h with h | h
        · left; exact List.mem_cons_of_mem _ h
        · right; exact h

theorem assocGet_mem {α : Type} {m : List (String × α)} {k : String} {v : α}
    (h : assocGet m k = some v) : (k, v) ∈ m := by
  induction m with
  | nil => simp [assocGet] at h
  | cons p tl ih =>
    obtain ⟨k0, v0⟩ := p
    by_cases h1 : k0 = k
    · subst h1
      simp [assocGet] at h
      subst h; exact List.mem_cons_self _ _
    · simp only [assocGet, if_neg h1] at h
      exact List.mem_cons_of_mem _ (ih h)

theorem assocGet_bumpCount_self (m : List (String × Nat)) (k : String) :
    assocGet (bumpCount m k) k = some ((assocGet m k).getD 0 + 1) := by
  simp [bumpCount, assocGet_upsert]

theorem assocGet_bumpCount_ne (m : List (String × Nat)) (k' k : String) (h : k' ≠ k) :
    assocGet (bumpCount m k') k = assocGet m k := by
  simp [bumpCount, assocGet_upsert, h]

/-! ## Lemmas: deduplication and the sorted output order -/

theorem dedup_foldl_inv {α : Type} (key : α → String) (xs : List α) :
    ∀ m : List (String × α),
      (m.map Prod.fst).Nodup → (∀ p ∈ m, key p.2 = p.1) →
      ((xs.foldl (fun m x => upsert m (key x) x) m).map Prod.fst).Nodup ∧
        (∀ p ∈ xs.foldl (fun m x => upsert m (key x) x) m, key p.2 = p.1) := by
  induction xs with
  | nil => intro m h1 h2; exact ⟨h1, h2⟩
  | cons x tl ih =>
    intro m h1 h2
    simp only [List.foldl_cons]
    apply ih
    · rw [keys_upsert]
      by_cases hk : key x ∈ m.map Prod.fst
      · simpa [hk] using h1
      · simp only [hk, if_false]
        rw [List.nodup_append]
        exact ⟨h1, List.nodup_singleton _, by simpa using hk⟩
    · intro p hp
      rcases mem_upsert hp with h | h
      · exact h2 p h
      · subst h; rfl

theorem dedup_keys_nodup {α : Type} (key : α → String) (xs : List α) :
    ((dedupByKey key xs).map Prod.fst).Nodup :=
  (dedup_foldl_inv key xs [] (by simp) (by simp)).1

theorem dedup_key_inv {α : Type} (key : α → String) (xs : List α) :
    ∀ p ∈ dedupByKey key xs, key p.2 = p.1 :=
  (dedup_foldl_inv key xs [] (by simp) (by simp)).2

/-- The persisted sequence has strictly ascending keys. -/
theorem sortedVals_key_pairwise {α : Type} (key : α → String) (xs : List α) :
    ((sortedVals (dedupByKey key xs)).map key).Pairwise (· < ·) := by
  unfold sortedVals
  set m := dedupByKey key xs with hm
  have hsorted : ((m.map Prod.fst).insertionSort (· ≤ ·)).Sorted (· ≤ ·) :=
    List.sorted_insertionSort _ _
  have hnd : ((m.map Prod.fst).insertionSort (· ≤ ·)).Nodup :=
    (List.perm_insertionSort _ _).nodup_iff.mpr (dedup_keys_nodup key xs)
  have hlt : ((m.map Prod.fst).insertionSort (· ≤ ·)).Sorted (· < ·) :=
    hsorted.lt_of_le hnd
  rw [List.pairwise_map]
  rw [List.pairwise_filterMap]
  refine hlt.imp (fun {a b} hab => ?_)
  intro x hx y hy
  rw [Option.mem_def] at hx hy
  have hx2 := dedup_key_inv key xs _ (assocGet_mem (hm ▸ hx))
  have hy2 := dedup_key_inv key xs _ (assocGet_mem (hm ▸ hy))
  simp only at hx2 hy2
  rw [hx2, hy2]
  exact hab

/-- Looking up the dedup dict returns the last inserted element with that
key (last writer wins). -/
theorem assocGet_dedup_eq_find_last {α : Type} (key : α → String) (xs : List α) (k : String) :
    assocGet (dedupByKey key xs) k = xs.reverse.find? (fun x => key x == k) := by
  suffices h : ∀ m : List (String × α),
      assocGet (xs.foldl (fun m x => upsert m (key x) x) m) k =
        (xs.reverse.find? (fun x => key x == k)).or (assocGet m k) by
    have := h []
    simpa [dedupByKey, assocGet] using this
  induction xs with
  | nil => intro m; simp
  | cons x tl ih =>
    intro m
    simp only [List.foldl_cons, List.reverse_cons, List.find?_append]
    rw [ih]
    by_cases hfind : (tl.reverse.find? (fun x => key x == k)).isSome
    · obtain ⟨y, hy⟩ := Option.isSome_iff_exists.1 hfind
      rw [hy]
      simp [Option.or]
    · rw [Option.not_isSome_iff_eq_none.1 hfind]
      simp only [Option.or, List.find?]
      rw [assocGet_upsert]
      by_cases hk : key x = k
      · simp [hk]
      · have hb : (key x == k) = false := by simpa using hk
        simp [hk, hb]

/-! ## Lemmas: unfolding `build_exports` -/

theorem build_exports_sorted_parts (xlsx : String) (wb : Workbook) (b2p now : String)
    (st : BState) (hc : collect_rows wb = .ok st) (e : Exports)
    (he : build_exports xlsx wb b2p now = .ok e) :
    e.listings = sortedVals (dedupByKey (fun l => l.listing_pk) st.listings) ∧
    e.raw_rows = sortedVals (dedupByKey (fun rr => rr.listing_pk) st.raw_rows) := by
  unfold build_exports at he
  rw [hc] at he
  simp only [Except.bind, bind, pure, Except.pure, Except.ok.injEq] at he
  subst he
  exact ⟨rfl, rfl⟩

/-! ## Lemmas: slug shape and idempotence -/

theorem head_squashDash : ∀ (cs : List Char) (b : Char) (tl : List Char),
    cs = b :: tl → ∃ t, squashDash cs = b :: t := by
  intro cs
  induction cs using squashDash.induct with
  | case1 => intro b tl h; cases h
  | case2 c =>
    intro b tl h
    obtain ⟨rfl, rfl⟩ := List.cons.inj h
    exact ⟨[], rfl⟩
  | case3 a b2 tl2 hd ih =>
    intro b tl h
    obtain ⟨rfl, rfl⟩ := List.cons.inj h
    obtain ⟨t, ht⟩ := ih b2 tl2 rfl
    rw [squashDash, if_pos hd, ht]
    exact ⟨t, by rw [hd.1, hd.2]⟩
  | case4 a b2 tl2 hd ih =>
    intro b tl h
    obtain ⟨rfl, rfl⟩ := List.cons.inj h
    rw [squashDash, if_neg hd]
    exact ⟨_, rfl⟩

theorem noDashPair_squashDash : ∀ (cs : List Char), noDashPair (squashDash cs) = true := by
  intro cs
  induction cs using squashDash.induct with
  | case1 => rfl
  | case2 c => rfl
  | case3 a b tl hd ih => rw [squashDash, if_pos hd]; exact ih
  | case4 a b tl hd ih =>
    rw [squashDash, if_neg hd]
    obtain ⟨t, ht⟩ := head_squashDash (b :: tl) b tl rfl
    rw [ht] at ih ⊢
    simp only [noDashPair, if_neg hd]
    exact ih

theorem squashDash_eq_self : ∀ (cs : List Char), noDashPair cs = true → squashDash cs = cs := by
  intro cs
  induction cs using squashDash.induct with
  | case1 => intro _; rfl
  | case2 c => intro _; rfl
  | case3 a b tl hd ih =>
    intro h
    simp only [noDashPair, if_pos hd] at h
    cases h
  | case4 a b tl hd ih =>
    intro h
    simp only [noDashPair, if_neg hd] at h
    rw [squashDash, if_neg hd, ih h]


theorem mem_dropEndWhile {p : Char → Bool} {x : Char} :
    ∀ {cs : List Char}, x ∈ dropEndWhile p cs → x ∈ cs := by
  intro cs
  induction cs with
  | nil => simp [dropEndWhile]
  | cons c tl ih =>
    intro hx
    simp only [dropEndWhile] at hx
    by_cases h : (dropEndWhile p tl).isEmpty ∧ p c
    · rw [if_pos h] at hx; cases hx
    · rw [if_neg h] at hx
      rcases List.mem_cons.1 hx with h1 | h1
      · simp [h1]
      · exact List.mem_cons_of_mem _ (ih h1)

theorem head_dropEndWhile {p : Char → Bool} :
    ∀ {cs : List Char}, dropEndWhile p cs ≠ [] → (dropEndWhile p cs).head? = cs.head? := by
  intro cs
  cases cs with
  | nil => intro h; simp [dropEndWhile] at h
  | cons c tl =>
    intro h
    simp only [dropEndWhile] at h ⊢
    by_cases hc : (dropEndWhile p tl).isEmpty ∧ p c
    · rw [if_pos hc] at h; exact absurd rfl h
    · rw [if_neg hc]; rfl

theorem getLast_dropEndWhile {p : Char → Bool} :
    ∀ {cs : List Char} {x : Char}, (dropEndWhile p cs).getLast? = some x → p x = false := by
  intro cs
  induction cs with
  | nil => intro x h; simp [dropEndWhile] at h
  | cons c tl ih =>
    intro x h
    simp only [dropEndWhile] at h
    by_cases hc : (dropEndWhile p tl).isEmpty ∧ p c
    · rw [if_pos hc] at h; cases h
    · rw [if_neg hc] at h
      cases hr : dropEndWhile p tl with
      | nil =>
        rw [hr] at h hc
        simp at h
        subst h
        simpa [List.isEmpty] using hc
      | cons d tl2 =>
        rw [hr] at h
        rw [List.getLast?_cons_cons] at h
        apply ih
        rw [hr]
        exact h

theorem noDashPair_tail : ∀ {a : Char} {tl : List Char},
    noDashPair (a :: tl) = true → noDashPair tl = true := by
  intro a tl h
  cases tl with
  | nil => rfl
  | cons b tl2 =>
    simp only [noDashPair] at h
    by_cases hd : a = '-' ∧ b = '-'
    · rw [if_pos hd] at h; cases h
    · rw [if_neg hd] at h; exact h

theorem noDashPair_dropWhile {p : Char → Bool} :
    ∀ {cs : List Char}, noDashPair cs = true → noDashPair (cs.dropWhile p) = true := by
  intro cs
  induction cs with
  | nil => intro h; exact h
  | cons c tl ih =>
    intro h
    rw [List.dropWhile_cons]
    by_cases hc : p c
    · simp only [hc, if_true]
      exact ih (noDashPair_tail h)
    · simp only [hc, if_false]
      exact h

theorem noDashPair_dropEndWhile {p : Char → Bool} :
    ∀ {cs : List Char}, noDashPair cs = true → noDashPair (dropEndWhile p cs) = true := by
  intro cs
  induction cs with
  | nil => intro h; exact h
  | cons c tl ih =>
    intro h
    simp only [dropEndWhile]
    by_cases hc : (dropEndWhile p tl).isEmpty ∧ p c
    · rw [if_pos hc]; rfl
    · rw [if_neg hc]
      cases hr : dropEndWhile p tl with
      | nil => rfl
      | cons d tl2 =>
        have hnd : noDashPair (dropEndWhile p tl) = true := ih (noDashPair_tail h)
        rw [hr] at hnd
        have hhd : (dropEndWhile p tl).head? = tl.head? := head_dropEndWhile (by rw [hr]; simp)
        rw [hr] at hhd
        cases tl with
        | nil => simp [dropEndWhile] at hr
        | cons b tl3 =>
          simp at hhd
          subst hhd
          simp only [noDashPair] at h ⊢
          by_cases hd : c = '-' ∧ d = '-'
          · rw [if_pos hd] at h; cases h
          · rw [if_neg hd]; exact hnd


theorem head_dropWhile_false {p : Char → Bool} :
    ∀ {cs : List Char} {x : Char}, (cs.dropWhile p).head? = some x → p x = false := by
  intro cs
  induction cs with
  | nil => intro x h; simp at h
  | cons c tl ih =>
    intro x h
    rw [List.dropWhile_cons] at h
    by_cases hc : p c
    · simp only [hc, if_true] at h; exact ih h
    · simp only [hc, if_false] at h
      simp at h
      subst h
      simpa using hc

theorem dropWhile_eq_self_of_head {p : Char → Bool} {cs : List Char}
    (h : ∀ x, cs.head? = some x → p x = false) : cs.dropWhile p = cs := by
  cases cs with
  | nil => rfl
  | cons c tl =>
    rw [List.dropWhile_cons]
    simp [h c rfl]

theorem dropEndWhile_eq_self {p : Char → Bool} :
    ∀ {cs : List Char}, (∀ x, cs.getLast? = some x → p x = false) →
      dropEndWhile p cs = cs := by
  intro cs
  induction cs with
  | nil => intro _; rfl
  | cons c tl ih =>
    intro h
    simp only [dropEndWhile]
    cases tl with
    | nil =>
      simp only [dropEndWhile, List.isEmpty]
      have := h c rfl
      simp [this]
    | cons b tl2 =>
      have htl : dropEndWhile p (b :: tl2) = b :: tl2 := by
        apply ih
        intro x hx
        apply h
        rw [List.getLast?_cons_cons]
        exact hx
      rw [htl]
      simp [List.isEmpty]


theorem pyLowerChar_fix {c : Char} (h : isSlugChar c = true) : pyLowerChar c = c := by
  unfold pyLowerChar
  by_cases hc : 'A' ≤ c ∧ c ≤ 'Z'
  · exfalso
    simp only [isSlugChar, slugChar, isDig, Bool.or_eq_true, Bool.and_eq_true, decide_eq_true_eq] at h
    rcases h with (⟨h1, h2⟩ | ⟨h1, h2⟩) | h1
    · exact absurd (le_trans h1 hc.2) (by decide)
    · exact absurd (le_trans hc.1 h2) (by decide)
    · rw [h1] at hc; exact absurd hc.1 (by decide)
  · rw [if_neg hc]

theorem isSlugChar_not_ws {c : Char} (h : isSlugChar c = true) : isPyWs c = false := by
  by_contra h2
  simp only [Bool.not_eq_false] at h2
  simp only [isPyWs, Bool.or_eq_true, decide_eq_true_eq] at h2
  rcases h2 with ((((h2 | h2) | h2) | h2) | h2) | h2 <;>
    (subst h2; exact absurd h (by decide))


theorem map_fix {f : Char → Char} : ∀ {cs : List Char}, (∀ c ∈ cs, f c = c) → cs.map f = cs := by
  intro cs
  induction cs with
  | nil => intro _; rfl
  | cons c tl ih =>
    intro h
    simp only [List.map_cons]
    rw [h c (List.mem_cons_self _ _), ih (fun x hx => h x (List.mem_cons_of_mem _ hx))]

theorem dashify_fix {c : Char} (h : isSlugChar c = true) :
    (if slugChar c then c else '-') = c := by
  by_cases hc : slugChar c
  · rw [if_pos hc]
  · rw [if_neg hc]
    simp only [isSlugChar, Bool.or_eq_true] at h
    rcases h with h | h
    · exact absurd h hc
    · simp only [decide_eq_true_eq] at h
      rw [h]

theorem str_toList_mk (cs : List Char) : (String.mk cs).toList = cs := rfl

theorem str_mk_toList (s : String) : String.mk s.toList = s := rfl

/-- main well-formedness result for `_slug` -/
theorem dashify_all (cs : List Char) : ∀ c ∈ dashify cs, isSlugChar c = true := by
  intro c hc
  simp only [dashify, List.mem_map] at hc
  obtain ⟨a, _, ha⟩ := hc
  by_cases h : slugChar a
  · simp [h] at ha; subst ha; simp [isSlugChar, h]
  · simp [h] at ha; subst ha; simp [isSlugChar]

theorem mem_squashDash {x : Char} : ∀ {cs : List Char}, x ∈ squashDash cs → x ∈ cs := by
  intro cs
  induction cs using squashDash.induct with
  | case1 => simp [squashDash]
  | case2 c => simp [squashDash]
  | case3 a b tl hd ih =>
    intro hx
    rw [squashDash, if_pos hd] at hx
    exact List.mem_cons_of_mem _ (ih hx)
  | case4 a b tl hd ih =>
    intro hx
    rw [squashDash, if_neg hd] at hx
    rcases List.mem_cons.1 hx with h1 | h1
    · simp [h1]
    · exact List.mem_cons_of_mem _ (ih h1)

theorem trimmed_wf (raw : List Char) (cs : List Char)
    (hcs : cs = trimEndsBy (fun c => c = '-') (squashDash (dashify raw)))
    (hne : cs ≠ []) :
    (∀ c ∈ cs, isSlugChar c = true) ∧ cs.head? ≠ some '-' ∧
      cs.getLast? ≠ some '-' ∧ noDashPair cs = true := by
  have hcs2 : cs = dropEndWhile (fun c => decide (c = '-'))
      (List.dropWhile (fun c => decide (c = '-')) (squashDash (dashify raw))) := hcs
  refine ⟨?_, ?_, ?_, ?_⟩
  · intro c hc
    have h1 := mem_dropEndWhile (hcs2 ▸ hc)
    have h2 := (List.dropWhile_sublist (l := squashDash (dashify raw))
      (p := fun c => decide (c = '-'))).mem h1
    exact dashify_all _ c (mem_squashDash h2)
  · intro hx
    rw [hcs2] at hx hne
    rw [head_dropEndWhile hne] at hx
    have := head_dropWhile_false hx
    simp at this
  · intro hx
    rw [hcs2] at hx
    have := getLast_dropEndWhile hx
    simp at this
  · rw [hcs2]
    exact noDashPair_dropEndWhile (noDashPair_dropWhile (noDashPair_squashDash _))

theorem isSlug_of_parts {t : String}
    (hne : t.toList ≠ []) (hmem : ∀ c ∈ t.toList, isSlugChar c = true)
    (hhead : t.toList.head? ≠ some '-') (hlast : t.toList.getLast? ≠ some '-')
    (hpair : noDashPair t.toList = true) : isSlug t = true := by
  simp only [isSlug, Bool.and_eq_true, List.all_eq_true, bne_iff_ne]
  refine ⟨⟨⟨⟨?_, hmem⟩, hhead⟩, hlast⟩, hpair⟩
  simpa [List.isEmpty_iff] using hne

theorem isSlug_slug (s : Option String) : isSlug (slug s) = true := by
  simp only [slug]
  by_cases ht : String.mk (trimEndsBy (fun c => c = '-')
      (squashDash (dashify (pyLower ((cleanOpt s).getD "unknown")).toList))) = ""
  · rw [if_pos ht]
    decide
  · rw [if_neg ht]
    have hne : (trimEndsBy (fun c => c = '-')
        (squashDash (dashify (pyLower ((cleanOpt s).getD "unknown")).toList))) ≠ [] := by
      intro h0
      apply ht
      rw [h0]
    obtain ⟨h1, h2, h3, h4⟩ := trimmed_wf _ _ rfl hne
    exact isSlug_of_parts hne h1 h2 h3 h4


/-- `_slug` is idempotent. -/
theorem slug_idem (s : Option String) : slug (some (slug s)) = slug s := by
  have hwf := isSlug_slug s
  simp only [isSlug, Bool.and_eq_true, List.all_eq_true, bne_iff_ne] at hwf
  obtain ⟨⟨⟨⟨hne0, hmem⟩, hhead⟩, hlast⟩, hpair⟩ := hwf
  have hne : (slug s).toList ≠ [] := by
    intro h0
    rw [h0] at hne0
    simp at hne0
  -- strip is the identity: no slug character is whitespace
  have hstrip : pyStrip (slug s) = slug s := by
    unfold pyStrip trimEndsBy
    rw [dropWhile_eq_self_of_head (fun x hx => isSlugChar_not_ws (hmem x (List.mem_of_mem_head? (by rw [hx]; rfl))))]
    rw [dropEndWhile_eq_self (fun x hx => isSlugChar_not_ws (hmem x (List.mem_of_getLast?_eq_some hx)))]
    exact str_mk_toList _
  have hclean : clean (slug s) = some (slug s) := by
    unfold clean
    rw [hstrip]
    have : slug s ≠ "" := by
      intro h0
      apply hne
      rw [h0]
      rfl
    simp [this]
  have hlower : pyLower (slug s) = slug s := by
    unfold pyLower
    rw [map_fix (fun c hc => pyLowerChar_fix (hmem c hc))]
    exact str_mk_toList _
  have hdash : dashify (slug s).toList = (slug s).toList :=
    map_fix (fun c hc => dashify_fix (hmem c hc))
  have hsquash : squashDash (slug s).toList = (slug s).toList :=
    squashDash_eq_self _ hpair
  have htrim : trimEndsBy (fun c => c = '-') (slug s).toList = (slug s).toList := by
    unfold trimEndsBy
    rw [dropWhile_eq_self_of_head (fun x hx => by
      simp only [decide_eq_false_iff_not]
      intro h0
      apply hhead
      rw [← h0]
      exact hx)]
    exact dropEndWhile_eq_self (fun x hx => by
      simp only [decide_eq_false_iff_not]
      intro h0
      apply hlast
      rw [← h0]
      exact hx)
  conv_lhs => rw [slug]
  simp only [cleanOpt, Option.bind, hclean, Option.getD, hlower, hdash, hsquash, htrim]
  rw [str_mk_toList]
  have hne2 : slug s ≠ "" := by
    intro h0
    apply hne
    rw [h0]
    rfl
  simp [hne2]


/-! ## Lemmas: size-extraction searches need a digit -/

theorem searchDec_none_of_no_digit :
    ∀ {cs : List Char}, (∀ c ∈ cs, isDig c = false) → searchDec cs = none := by
  intro cs
  induction cs with
  | nil => intro _; rfl
  | cons c tl ih =>
    intro h
    have hc : isDig c = false := h c (List.mem_cons_self _ _)
    simp only [searchDec, matchDecAt, hc, Bool.false_eq_true, if_false]
    exact ih (fun x hx => h x (List.mem_cons_of_mem _ hx))

theorem searchFrac_none_of_no_digit :
    ∀ {cs : List Char}, (∀ c ∈ cs, isDig c = false) → searchFrac cs = none := by
  intro cs
  induction cs with
  | nil => intro _; rfl
  | cons c tl ih =>
    intro h
    have hc : isDig c = false := h c (List.mem_cons_self _ _)
    simp only [searchFrac, matchFracAt, hc, Bool.false_eq_true, if_false]
    exact ih (fun x hx => h x (List.mem_cons_of_mem _ hx))

theorem searchQuot_none_of_no_digit :
    ∀ {cs : List Char}, (∀ c ∈ cs, isDig c = false) → searchQuot cs = none := by
  intro cs
  induction cs with
  | nil => intro _; rfl
  | cons c tl ih =>
    intro h
    have hc : isDig c = false := h c (List.mem_cons_self _ _)
    simp only [searchQuot, matchQuotAt, hc, Bool.false_eq_true, if_false]
    exact ih (fun x hx => h x (List.mem_cons_of_mem _ hx))

theorem mem_pyStrip {s : String} {c : Char} (h : c ∈ (pyStrip s).toList) : c ∈ s.toList := by
  unfold pyStrip trimEndsBy at h
  rw [str_toList_mk] at h
  exact (List.dropWhile_sublist _).mem (mem_dropEndWhile h)

theorem extract_none_of_no_digit (s : String)
    (h : ∀ c ∈ s.toList, isDig c = false) : extract_size_in (some s) = .ok none := by
  unfold extract_size_in cleanOpt
  simp only [Option.bind]
  unfold clean
  by_cases he : pyStrip s = ""
  · simp [he]
  · have hsub : ∀ c ∈ (pyStrip s).toList, isDig c = false :=
      fun c hc => h c (mem_pyStrip hc)
    simp only [he, if_neg he, if_false, searchDec_none_of_no_digit hsub,
      searchFrac_none_of_no_digit hsub, searchQuot_none_of_no_digit hsub]


/-! ## Lemmas: the JBG cross-sheet reconciler -/

theorem jbg_url_backfill (idx : List (String × CatRec)) (st : BState) (r : Nat)
    (row : Row) (pid : String) (c : CatRec) (u : String) (st2 : BState)
    (hpid : cleanCell (rowGet row "product_id") = some pid)
    (hcat : assocGet idx pid = some c)
    (hdet : cleanCell (rowGet row "product_url") = none)
    (hurl : cleanOpt c.product_url = some u)
    (hok : jbg_detail_step idx st (r, row) = .ok st2) :
    st2.listings.map (fun l => l.url) = st.listings.map (fun l => l.url) ++ [u] := by
  simp only [jbg_detail_step, hpid, hcat, hdet, Option.some_bind, Option.none_orElse,
    hurl] at hok
  cases hs : size_or (profileScan (if isJobj (safe_json (rowGet row "glove_profile_json") (.jobj [])) then
      jobjFields (safe_json (rowGet row "glove_profile_json") (.jobj [])) else [])).1
      (cleanCell (rowGet row "title") <|> cleanOpt (c.catalog_title)) with
  | error err =>
    rw [hs] at hok
    simp [Except.bind, bind] at hok
  | ok sz =>
    rw [hs] at hok
    simp only [Except.bind, bind, pure, Except.pure, Except.ok.injEq] at hok
    subst hok
    simp only [jbg_row_out, List.map_append, List.map_cons, List.map_nil]

theorem jbg_no_url_counter (idx : List (String × CatRec)) (st : BState) (r : Nat)
    (row : Row) (pid : String) (c : CatRec) (u : String) (st2 : BState)
    (hpid : cleanCell (rowGet row "product_id") = some pid)
    (hcat : assocGet idx pid = some c)
    (hdet : cleanCell (rowGet row "product_url") = none)
    (hurl : cleanOpt c.product_url = some u)
    (hprice : safe_float (rowGet row "price") = none)
    (hcp : c.catalog_price = none)
    (hok : jbg_detail_step idx st (r, row) = .ok st2) :
    assocGet st2.defaults "url_from_catalog" = assocGet st.defaults "url_from_catalog" := by
  simp only [jbg_detail_step, hpid, hcat, hdet, Option.some_bind, Option.none_orElse,
    hurl] at hok
  cases hs : size_or (profileScan (if isJobj (safe_json (rowGet row "glove_profile_json") (.jobj [])) then
      jobjFields (safe_json (rowGet row "glove_profile_json") (.jobj [])) else [])).1
      (cleanCell (rowGet row "title") <|> cleanOpt (c.catalog_title)) with
  | error err =>
    rw [hs] at hok
    simp [Except.bind, bind] at hok
  | ok sz =>
    rw [hs] at hok
    simp only [Except.bind, bind, pure, Except.pure, Except.ok.injEq] at hok
    subst hok
    simp only [jbg_row_out, hcat, Option.some_bind, hprice, hcp]
    split_ifs <;>
      simp [assocGet_bumpCount_ne, assocGet_bumpCount_self]


theorem jbg_price_backfill (idx : List (String × CatRec)) (st : BState) (r : Nat)
    (row : Row) (pid du : String) (cp : Rat) (st2 : BState)
    (hpid : cleanCell (rowGet row "product_id") = some pid)
    (hdu : cleanCell (rowGet row "product_url") = some du)
    (hprice : safe_float (rowGet row "price") = none)
    (hcp : (assocGet idx pid).bind (fun x => x.catalog_price) = some cp)
    (hok : jbg_detail_step idx st (r, row) = .ok st2) :
    st2.listings.map (fun l => l.price) = st.listings.map (fun l => l.price) ++ [some cp] ∧
    assocGet st2.defaults "price_from_catalog" =
      some ((assocGet st.defaults "price_from_catalog").getD 0 + 1) := by
  simp only [jbg_detail_step, hpid, hdu, Option.some_orElse] at hok
  cases hs : size_or (profileScan (if isJobj (safe_json (rowGet row "glove_profile_json") (.jobj [])) then
      jobjFields (safe_json (rowGet row "glove_profile_json") (.jobj [])) else [])).1
      (cleanCell (rowGet row "title") <|> cleanOpt (Option.bind (assocGet idx pid) (fun x => x.catalog_title))) with
  | error err =>
    rw [hs] at hok
    simp [Except.bind, bind] at hok
  | ok sz =>
    rw [hs] at hok
    simp only [Except.bind, bind, pure, Except.pure, Except.ok.injEq] at hok
    subst hok
    simp only [jbg_row_out, hprice, hcp, List.map_append, List.map_cons, List.map_nil]
    refine ⟨trivial, ?_⟩
    split_ifs <;>
      simp [assocGet_bumpCount_ne, assocGet_bumpCount_self]

theorem jbg_missing_catalog_ok (idx : List (String × CatRec)) (st : BState) (r : Nat)
    (row : Row) (pid du : String) (st2 : BState)
    (hpid : cleanCell (rowGet row "product_id") = some pid)
    (hcat : assocGet idx pid = none)
    (hdu : cleanCell (rowGet row "product_url") = some du)
    (hok : jbg_detail_step idx st (r, row) = .ok st2) :
    st2.errors = st.errors ∧ st2.listings.length = st.listings.length + 1 := by
  simp only [jbg_detail_step, hpid, hcat, hdu, Option.some_orElse, Option.none_bind] at hok
  cases hs : size_or (profileScan (if isJobj (safe_json (rowGet row "glove_profile_json") (.jobj [])) then
      jobjFields (safe_json (rowGet row "glove_profile_json") (.jobj [])) else [])).1
      (cleanCell (rowGet row "title") <|> cleanOpt none) with
  | error err =>
    rw [hs] at hok
    simp [Except.bind, bind] at hok
  | ok sz =>
    rw [hs] at hok
    simp only [Except.bind, bind, pure, Except.pure, Except.ok.injEq] at hok
    subst hok
    simp [jbg_row_out]


/-! ## The claims -/

/-- C1: for every input workbook, the exported listing sequence produced by
`build_exports` is strictly ascending in lexicographic `listing_pk` order —
in particular no two produced listings share a `listing_pk`, and the
persisted order is the sort by `listing_pk`, not insertion order. -/
theorem claim_C1 (xlsx : String) (wb : Workbook) (b2p now : String) (e : Exports)
    (he : build_exports xlsx wb b2p now = .ok e) :
    (e.listings.map (fun l => l.listing_pk)).Pairwise (· < ·) ∧
    (e.listings.map (fun l => l.listing_pk)).Nodup := by
  have hp : (e.listings.map (fun l => l.listing_pk)).Pairwise (· < ·) := by
    cases hc : collect_rows wb with
    | error err =>
      unfold build_exports at he
      rw [hc] at he
      simp [Except.bind, bind] at he
    | ok st =>
      rw [(build_exports_sorted_parts xlsx wb b2p now st hc e he).1]
      exact sortedVals_key_pairwise _ _
  exact ⟨hp, hp.imp ne_of_lt⟩

/-- C1 witness: on a concrete workbook with two rows resolving to the same
key, the exported sequence is strictly ascending. -/
theorem claim_C1_witness :
    (((okOr (build_exports "in.xlsx" wbDup "gloveiq" "T0") emptyExports).listings.map
      (fun l => l.listing_pk)).Pairwise (· < ·)) ∧
    (((okOr (build_exports "in.xlsx" wbDup "gloveiq" "T0") emptyExports).listings.map
      (fun l => l.listing_pk)).Nodup) :=
  claim_C1 "in.xlsx" wbDup "gloveiq" "T0" _ rfl


/-- C2 (amended): rerunning the export on byte-identical input reproduces the
listings, raw rows and media manifest exactly; the run report reproduces
every field except `generated_at`, which carries the wall-clock timestamp of
the run. -/
theorem claim_C2 (xlsx : String) (wb : Workbook) (b2p t1 t2 : String) (e1 e2 : Exports)
    (h1 : build_exports xlsx wb b2p t1 = .ok e1)
    (h2 : build_exports xlsx wb b2p t2 = .ok e2) :
    e1.listings = e2.listings ∧ e1.raw_rows = e2.raw_rows ∧
      e1.media_manifest = e2.media_manifest ∧
      e2.report = { e1.report with generated_at := t2 } := by
  cases hc : collect_rows wb with
  | error err =>
    unfold build_exports at h1
    rw [hc] at h1
    simp [Except.bind, bind] at h1
  | ok st =>
    unfold build_exports at h1 h2
    rw [hc] at h1 h2
    simp only [Except.bind, bind, pure, Except.pure, Except.ok.injEq] at h1 h2
    subst h1; subst h2
    exact ⟨rfl, rfl, rfl, rfl⟩

/-- C2 witness: the amended statement applied to a concrete workbook and two
distinct run timestamps. -/
theorem claim_C2_witness :
    (okOr (build_exports "in.xlsx" wbW "gloveiq" "T1") emptyExports).listings =
      (okOr (build_exports "in.xlsx" wbW "gloveiq" "T2") emptyExports).listings ∧
    (okOr (build_exports "in.xlsx" wbW "gloveiq" "T1") emptyExports).raw_rows =
      (okOr (build_exports "in.xlsx" wbW "gloveiq" "T2") emptyExports).raw_rows ∧
    (okOr (build_exports "in.xlsx" wbW "gloveiq" "T1") emptyExports).media_manifest =
      (okOr (build_exports "in.xlsx" wbW "gloveiq" "T2") emptyExports).media_manifest ∧
    (okOr (build_exports "in.xlsx" wbW "gloveiq" "T2") emptyExports).report =
      { (okOr (build_exports "in.xlsx" wbW "gloveiq" "T1") emptyExports).report with
          generated_at := "T2" } :=
  claim_C2 "in.xlsx" wbW "gloveiq" "T1" "T2" _ _ rfl rfl

/-- C2 counterexample: the claim as stated is false — `import_report.json`
embeds the run timestamp, so two runs at different clock seconds produce
different report contents on byte-identical input. -/
theorem claim_C2_counterexample :
    (okOr (build_exports "in.xlsx" wbW "gloveiq" "2024-01-01T00:00:00Z") emptyExports).report ≠
    (okOr (build_exports "in.xlsx" wbW "gloveiq" "2024-01-01T00:00:01Z") emptyExports).report := by
  decide

/-- C3: deduplication is last-writer-wins — the dict lookup used by
`build_exports` retains exactly the last inserted record with each
`listing_pk` (no field-by-field merge), and the exported listings and raw
rows are precisely the key-sorted values of that discipline applied to the
collected rows. -/
theorem claim_C3 :
    (∀ (α : Type) (key : α → String) (xs : List α) (k : String),
      assocGet (dedupByKey key xs) k = xs.reverse.find? (fun x => key x == k)) ∧
    (∀ (xlsx : String) (wb : Workbook) (b2p now : String) (st : BState) (e : Exports),
      collect_rows wb = .ok st → build_exports xlsx wb b2p now = .ok e →
      e.listings = sortedVals (dedupByKey (fun l => l.listing_pk) st.listings) ∧
      e.raw_rows = sortedVals (dedupByKey (fun rr => rr.listing_pk) st.raw_rows)) :=
  ⟨fun _ key xs k => assocGet_dedup_eq_find_last key xs k,
   fun xlsx wb b2p now st e hc he => build_exports_sorted_parts xlsx wb b2p now st hc e he⟩

/-- C3 witness: two source rows share `listing_pk` `"SS:A1"`; the retained
record is the later-processed row (its title is "Second", the earlier
"First" is fully replaced), for listings and raw rows alike. -/
theorem claim_C3_witness :
    ((okOr (build_exports "in.xlsx" wbDup "gloveiq" "T0") emptyExports).listings =
      sortedVals (dedupByKey (fun l => l.listing_pk)
        (okOr (collect_rows wbDup) emptyB).listings)) ∧
    (assocGet (dedupByKey (fun (l : Listing) => l.listing_pk)
        (okOr (collect_rows wbDup) emptyB).listings) "SS:A1" =
      ((okOr (collect_rows wbDup) emptyB).listings).reverse.find?
        (fun x => x.listing_pk == "SS:A1")) ∧
    ((okOr (build_exports "in.xlsx" wbDup "gloveiq" "T0") emptyExports).listings.map
      (fun l => l.title) = [some "Second"]) ∧
    ((okOr (build_exports "in.xlsx" wbDup "gloveiq" "T0") emptyExports).raw_rows.map
      (fun rr => rr.raw_text) = [some "Second"]) :=
  ⟨(claim_C3.2 "in.xlsx" wbDup "gloveiq" "T0" _ _ rfl rfl).1,
   claim_C3.1 Listing _ _ "SS:A1", rfl, rfl⟩

/-- C4: the claim that every field normalizer is total fails —
`_extract_size_in` divides by the parsed denominator with a bare Python
division, so the mixed-fraction text "12 3/0" raises `ZeroDivisionError`
(and a workbook containing such a size text crashes the whole export). -/
theorem claim_C4 :
    extract_size_in (some "12 3/0") = .error .zeroDiv ∧
    build_exports "in.xlsx" wbC4 "gloveiq" "T0" = .error .zeroDiv := ⟨rfl, rfl⟩


/-- C5: size extraction tries the decimal pattern, then the mixed-fraction
pattern, then the quoted-inch pattern, in that order; the first match wins
and the result is null when none match. Concretely "12 3/4" yields 12.75,
"11.5\"" yields 11.5, and digit-free input yields null. -/
theorem claim_C5 :
    extract_size_in (some "12 3/4") = .ok (some (12.75 : Rat)) ∧
    extract_size_in (some "11.5\"") = .ok (some (11.5 : Rat)) ∧
    (∀ s : String, (∀ c ∈ s.toList, isDig c = false) →
      extract_size_in (some s) = .ok none) ∧
    (∀ s t : String, clean s = some t →
      (∀ g, searchDec t.toList = some g →
        extract_size_in (some s) = .ok (safeFloatStr (String.mk g))) ∧
      (searchDec t.toList = none → ∀ w n d, searchFrac t.toList = some (w, n, d) →
        digVal d ≠ 0 →
        extract_size_in (some s) =
          .ok (some ((digitsToNat w : Rat) + (digVal n : Rat) / (digVal d : Rat)))) ∧
      (searchDec t.toList = none → searchFrac t.toList = none →
        ∀ g, searchQuot t.toList = some g →
        extract_size_in (some s) = .ok (safeFloatStr (String.mk g))) ∧
      (searchDec t.toList = none → searchFrac t.toList = none →
        searchQuot t.toList = none → extract_size_in (some s) = .ok none)) := by
  refine ⟨?_, ?_, fun s h => extract_none_of_no_digit s h, ?_⟩
  · rw [show extract_size_in (some "12 3/4") =
        .ok (some ((digitsToNat ['1', '2'] : Rat) +
          (digVal '3' : Rat) / (digVal '4' : Rat))) from rfl]
    rw [show digitsToNat ['1', '2'] = 12 from rfl, show digVal '3' = 3 from rfl,
      show digVal '4' = 4 from rfl]
    norm_num
  · rw [show extract_size_in (some "11.5\"") =
        .ok (safeFloatStr (String.mk ['1', '1', '.', '5'])) from rfl]
    rw [show safeFloatStr (String.mk ['1', '1', '.', '5']) =
        some ((1 : Rat) * ((digitsToNat ['1', '1'] : Rat) +
          (digitsToNat ['5'] : Rat) / (10 : Rat) ^ (1 : Nat))) from rfl]
    rw [show digitsToNat ['1', '1'] = 11 from rfl, show digitsToNat ['5'] = 5 from rfl]
    norm_num
  intro s t hclean
  unfold extract_size_in cleanOpt
  simp only [Option.some_bind, hclean]
  refine ⟨?_, ?_, ?_, ?_⟩
  · intro g hg
    simp only [String.toList] at hg
    simp [hg]
  · intro h1 w n d h2 h3
    simp only [String.toList] at h1 h2
    simp [h1, h2, h3]
  · intro h1 h2 g h3
    simp only [String.toList] at h1 h2 h3
    simp [h1, h2, h3]
  · intro h1 h2 h3
    simp only [String.toList] at h1 h2 h3
    simp [h1, h2, h3]

/-- C5 witness: the priority chain applied at concrete inputs — a digit-free
string maps to null, and the fraction branch evaluates "12 3/4" through the
mixed-fraction pattern. -/
theorem claim_C5_witness :
    extract_size_in (some "no size here!") = .ok none ∧
    extract_size_in (some "12 3/4") =
      .ok (some ((digitsToNat ['1', '2'] : Rat) +
        (digVal '3' : Rat) / (digVal '4' : Rat))) :=
  ⟨claim_C5.2.2.1 "no size here!" (by decide),
   (claim_C5.2.2.2 "12 3/4" "12 3/4" (by decide)).2.1 (by decide) ['1', '2'] '3' '4'
     (by decide) (by decide)⟩


theorem clean_some_ne_empty {s t : String} (h : clean s = some t) : t ≠ "" := by
  unfold clean at h
  by_cases he : pyStrip s = ""
  · simp [he] at h
  · simp only [he, if_false, Option.some.injEq] at h
    subst h
    exact he

theorem cleanOpt_some_ne_empty {v : Option String} {t : String}
    (h : cleanOpt v = some t) : t ≠ "" := by
  cases v with
  | none => simp [cleanOpt] at h
  | some s =>
    simp only [cleanOpt, Option.some_bind] at h
    exact clean_some_ne_empty h

theorem pyLower_ne_empty {t : String} (h : t ≠ "") : pyLower t ≠ "" := by
  intro h2
  apply h
  unfold pyLower at h2
  have h3 : (t.toList.map pyLowerChar) = [] := congrArg String.toList h2
  rw [List.map_eq_nil_iff] at h3
  have h4 : t = String.mk t.toList := rfl
  rw [h4, h3]

/-- C6: throw-hand normalization is a case-insensitive substring match —
text containing "rht"/"right" maps to RHT, else "lht"/"left" maps to LHT,
any other supplied text maps to UNK, and an absent or blank field maps to
null, which is distinct from UNK. -/
theorem claim_C6 :
    (∀ v : Option String,
      (cleanOpt v = none → norm_throw v = none) ∧
      (∀ t, cleanOpt v = some t →
        ((strHasSub (pyLower t) "rht" = true ∨ strHasSub (pyLower t) "right" = true) →
          norm_throw v = some "RHT") ∧
        (strHasSub (pyLower t) "rht" = false → strHasSub (pyLower t) "right" = false →
          (strHasSub (pyLower t) "lht" = true ∨ strHasSub (pyLower t) "left" = true) →
          norm_throw v = some "LHT") ∧
        (strHasSub (pyLower t) "rht" = false → strHasSub (pyLower t) "right" = false →
          strHasSub (pyLower t) "lht" = false → strHasSub (pyLower t) "left" = false →
          norm_throw v = some "UNK"))) ∧
    norm_throw (some "Throws Right") = some "RHT" ∧
    norm_throw (some "LHT") = some "LHT" ∧
    norm_throw (some "ambidextrous") = some "UNK" ∧
    norm_throw none = none ∧
    norm_throw (some "   ") = none ∧
    norm_throw none ≠ some "UNK" := by
  refine ⟨?_, by decide, by decide, by decide, rfl, by decide, by decide⟩
  intro v
  constructor
  · intro h
    simp [norm_throw, h, pyLower]
  · intro t ht
    have hne : pyLower t ≠ "" := pyLower_ne_empty (cleanOpt_some_ne_empty ht)
    refine ⟨?_, ?_, ?_⟩
    · intro h
      rcases h with h | h <;>
        simp [norm_throw, ht, hne, h]
    · intro h1 h2 h3
      rcases h3 with h3 | h3 <;>
        simp [norm_throw, ht, hne, h1, h2, h3]
    · intro h1 h2 h3 h4
      simp [norm_throw, ht, hne, h1, h2, h3, h4]

/-- C6 witness: the substring rules applied at concrete supplied text. -/
theorem claim_C6_witness :
    norm_throw (some " throws RIGHT ") = some "RHT" ∧
    norm_throw (some "Lefty") = some "LHT" ∧
    norm_throw (some "switch") = some "UNK" :=
  ⟨((claim_C6.1 (some " throws RIGHT ")).2 "throws RIGHT" (by decide)).1 (by decide),
   ((claim_C6.1 (some "Lefty")).2 "Lefty" (by decide)).2.1 (by decide) (by decide)
     (by decide),
   ((claim_C6.1 (some "switch")).2 "switch" (by decide)).2.2 (by decide) (by decide)
     (by decide) (by decide)⟩


theorem modelCodeFlag_false (model_code : Option String)
    (hmc : ∀ mc t, model_code = some mc → mc ≠ "" → clean mc = some t → t = "Unknown") :
    modelCodeFlag model_code = false := by
  unfold modelCodeFlag
  cases model_code with
  | none => rfl
  | some mc =>
    by_cases hemp : mc = ""
    · simp [hemp]
    · rcases hcl : clean mc with _ | t
      · simp [hemp, hcl]
      · simp only [hemp, if_neg hemp, hcl, if_false, decide_eq_false_iff_not,
          Decidable.not_not]
        exact hmc mc t rfl hemp hcl

theorem modelCodeFlag_true {model_code : Option String} {mc t : String}
    (h1 : model_code = some mc) (h2 : mc ≠ "") (h3 : clean mc = some t)
    (h4 : t ≠ "Unknown") : modelCodeFlag model_code = true := by
  subst h1
  simp [modelCodeFlag, h2, h3, h4]

/-- C7: the record classifier returns artifact whenever the combined
lowercase text of source, condition, model code and title contains an
individualization marker — even with a populated model code; otherwise
variant when a non-empty, non-"Unknown" model code is present or the source
is a known first-party retailer tag, and artifact in all remaining cases. -/
theorem claim_C7 :
    (∀ (source : String) (condition model_code title : Option String),
      ((∃ mk ∈ artifact_markers,
          strHasSub (pyLower (String.intercalate " "
            [source, condition.getD "", model_code.getD "", title.getD ""])) mk = true) →
        record_type_from_listing source condition model_code title = "artifact") ∧
      ((∀ mk ∈ artifact_markers,
          strHasSub (pyLower (String.intercalate " "
            [source, condition.getD "", model_code.getD "", title.getD ""])) mk = false) →
        (∃ mc t, model_code = some mc ∧ mc ≠ "" ∧ clean mc = some t ∧ t ≠ "Unknown") →
        record_type_from_listing source condition model_code title = "variant") ∧
      ((∀ mk ∈ artifact_markers,
          strHasSub (pyLower (String.intercalate " "
            [source, condition.getD "", model_code.getD "", title.getD ""])) mk = false) →
        (pyUpper source = "JBG" ∨ pyUpper source = "JUSTBALLGLOVES") →
        record_type_from_listing source condition model_code title = "variant") ∧
      ((∀ mk ∈ artifact_markers,
          strHasSub (pyLower (String.intercalate " "
            [source, condition.getD "", model_code.getD "", title.getD ""])) mk = false) →
        (∀ mc t, model_code = some mc → mc ≠ "" → clean mc = some t → t = "Unknown") →
        ¬(pyUpper source = "JBG" ∨ pyUpper source = "JUSTBALLGLOVES") →
        record_type_from_listing source condition model_code title = "artifact")) ∧
    record_type_from_listing "SS" (some "New") (some "WBW100")
      (some "Game Used Wilson A2000") = "artifact" := by
  refine ⟨?_, by decide⟩
  intro source condition model_code title
  refine ⟨?_, ?_, ?_, ?_⟩
  · intro h
    obtain ⟨mk, hmk, hsub⟩ := h
    have hany : artifact_markers.any (fun m => strHasSub (pyLower (String.intercalate " "
        [source, condition.getD "", model_code.getD "", title.getD ""])) m) = true :=
      List.any_eq_true.2 ⟨mk, hmk, hsub⟩
    simp [record_type_from_listing, hany]
  · intro hno hmc
    obtain ⟨mc, t, hmc1, hmc2, hmc3, hmc4⟩ := hmc
    have hany : artifact_markers.any (fun m => strHasSub (pyLower (String.intercalate " "
        [source, condition.getD "", model_code.getD "", title.getD ""])) m) = false := by
      rw [List.any_eq_false]
      intro m hm
      simp [hno m hm]
    simp [record_type_from_listing, hany, modelCodeFlag_true hmc1 hmc2 hmc3 hmc4]
  · intro hno hsrc
    have hany : artifact_markers.any (fun m => strHasSub (pyLower (String.intercalate " "
        [source, condition.getD "", model_code.getD "", title.getD ""])) m) = false := by
      rw [List.any_eq_false]
      intro m hm
      simp [hno m hm]
    by_cases hf : modelCodeFlag model_code <;>
      simp [record_type_from_listing, hany, hf, hsrc]
  · intro hno hmc hsrc
    have hany : artifact_markers.any (fun m => strHasSub (pyLower (String.intercalate " "
        [source, condition.getD "", model_code.getD "", title.getD ""])) m) = false := by
      rw [List.any_eq_false]
      intro m hm
      simp [hno m hm]
    simp [record_type_from_listing, hany, modelCodeFlag_false model_code hmc, hsrc]

/-- C7 witness: classification at concrete inputs — marker text wins over a
populated model code; a good model code yields variant; a known retailer
tag yields variant without a model code; otherwise artifact. -/
theorem claim_C7_witness :
    record_type_from_listing "SS" (some "Used") (some "A2K") (some "custom relaced") = "artifact" ∧
    record_type_from_listing "SS" none (some "WBW100") (some "Wilson") = "variant" ∧
    record_type_from_listing "jbg" none none none = "variant" ∧
    record_type_from_listing "SS" none none (some "Wilson glove") = "artifact" :=
  ⟨(claim_C7.1 "SS" (some "Used") (some "A2K") (some "custom relaced")).1
     ⟨"custom", by decide, by decide⟩,
   (claim_C7.1 "SS" none (some "WBW100") (some "Wilson")).2.1 (by decide)
     ⟨"WBW100", "WBW100", rfl, by decide, by decide, by decide⟩,
   (claim_C7.1 "jbg" none none none).2.2.1 (by decide) (Or.inl (by decide)),
   (claim_C7.1 "SS" none none (some "Wilson glove")).2.2.2 (by decide)
     (fun mc t hmc => by cases hmc) (by decide)⟩


/-- C8 (amended): with resume enabled, force off, a prior checkpoint whose
recorded fingerprint equals the current input's fingerprint, and the
normalized / manifest / report outputs still present, `run_import` performs
no export: it returns exit code 0 and leaves the filesystem untouched. (The
code additionally requires those output files to exist — a matching
checkpoint alone does not trigger the skip.) -/
theorem claim_C8 (wb : Workbook) (xlsx : String) (fp : Fingerprint)
    (out_dir b2p : String) (emit_raw : Bool) (now : String) (fs : FS) (cp : Checkpoint)
    (hcp : fs.checkpoint = some (some cp))
    (hfp : cp.input_fingerprint = fp)
    (hn : fs.normalized.isSome) (hm : fs.media.isSome) (hr : fs.report.isSome) :
    run_import wb xlsx fp out_dir b2p emit_raw true false now fs = .ok (0, fs) := by
  unfold run_import
  simp [hcp, hfp, hn, hm, hr]

/-- C8 witness: the skip at a concrete filesystem state whose checkpoint
matches the current fingerprint and whose outputs are all present. -/
theorem claim_C8_witness :
    run_import wbW "in.xlsx" fpW "out" "gloveiq" true true false "T9" fsSkip =
      .ok (0, fsSkip) :=
  claim_C8 wbW "in.xlsx" fpW "out" "gloveiq" true "T9" fsSkip cpW rfl rfl rfl rfl rfl

/-- C8 counterexample: the claim as stated is false — with resume on, force
off and a prior checkpoint whose recorded fingerprint equals the current
one, `run_import` still performs a full export when an output file (here
`listings.normalized.jsonl`) is missing: the run rewrites it. -/
theorem claim_C8_counterexample :
    fsMiss.checkpoint = some (some cpW) ∧ cpW.input_fingerprint = fpW ∧
    fsMiss.normalized = none ∧
    (run_import wbW "in.xlsx" fpW "out" "gloveiq" true true false "T0" fsMiss).toOption.map
      (fun r => r.2.normalized) = some (some []) := ⟨rfl, rfl, rfl, rfl⟩

/-- C9 (amended): for a detail row with a resolvable product id, a missing
URL is backfilled from the catalog counterpart (with no counter recorded),
and a missing price is backfilled from the catalog counterpart with the
"price_from_catalog" counter incremented; a missing catalog counterpart is
not an error as long as the detail row supplies its own URL. -/
theorem claim_C9 :
    (∀ (idx : List (String × CatRec)) (st : BState) (r : Nat) (row : Row)
        (pid : String) (c : CatRec) (u : String) (st2 : BState),
      cleanCell (rowGet row "product_id") = some pid →
      assocGet idx pid = some c →
      cleanCell (rowGet row "product_url") = none →
      cleanOpt c.product_url = some u →
      jbg_detail_step idx st (r, row) = .ok st2 →
      st2.listings.map (fun l => l.url) = st.listings.map (fun l => l.url) ++ [u]) ∧
    (∀ (idx : List (String × CatRec)) (st : BState) (r : Nat) (row : Row)
        (pid : String) (c : CatRec) (u : String) (st2 : BState),
      cleanCell (rowGet row "product_id") = some pid →
      assocGet idx pid = some c →
      cleanCell (rowGet row "product_url") = none →
      cleanOpt c.product_url = some u →
      safe_float (rowGet row "price") = none →
      c.catalog_price = none →
      jbg_detail_step idx st (r, row) = .ok st2 →
      assocGet st2.defaults "url_from_catalog" = assocGet st.defaults "url_from_catalog") ∧
    (∀ (idx : List (String × CatRec)) (st : BState) (r : Nat) (row : Row)
        (pid du : String) (cp : Rat) (st2 : BState),
      cleanCell (rowGet row "product_id") = some pid →
      cleanCell (rowGet row "product_url") = some du →
      safe_float (rowGet row "price") = none →
      (assocGet idx pid).bind (fun x => x.catalog_price) = some cp →
      jbg_detail_step idx st (r, row) = .ok st2 →
      st2.listings.map (fun l => l.price) = st.listings.map (fun l => l.price) ++ [some cp] ∧
      assocGet st2.defaults "price_from_catalog" =
        some ((assocGet st.defaults "price_from_catalog").getD 0 + 1)) ∧
    (∀ (idx : List (String × CatRec)) (st : BState) (r : Nat) (row : Row)
        (pid du : String) (st2 : BState),
      cleanCell (rowGet row "product_id") = some pid →
      assocGet idx pid = none →
      cleanCell (rowGet row "product_url") = some du →
      jbg_detail_step idx st (r, row) = .ok st2 →
      st2.errors = st.errors ∧ st2.listings.length = st.listings.length + 1) :=
  ⟨fun idx st r row pid c u st2 h1 h2 h3 h4 h5 =>
     jbg_url_backfill idx st r row pid c u st2 h1 h2 h3 h4 h5,
   fun idx st r row pid c u st2 h1 h2 h3 h4 h5 h6 h7 =>
     jbg_no_url_counter idx st r row pid c u st2 h1 h2 h3 h4 h5 h6 h7,
   fun idx st r row pid du cp st2 h1 h2 h3 h4 h5 =>
     jbg_price_backfill idx st r row pid du cp st2 h1 h2 h3 h4 h5,
   fun idx st r row pid du st2 h1 h2 h3 h4 =>
     jbg_missing_catalog_ok idx st r row pid du st2 h1 h2 h3 h4⟩

/-- C9 witness: the reconciler at concrete rows — URL backfilled from the
catalog, price backfilled with its counter, and a missing counterpart
producing no error. -/
theorem claim_C9_witness :
    ((okOr (jbg_detail_step idxC9 emptyB (2, rowC9)) emptyB).listings.map
      (fun l => l.url) = ["https://cat/u1"]) ∧
    ((okOr (jbg_detail_step idxC9p emptyB (2, rowC9p)) emptyB).listings.map
        (fun l => l.price) = [some 25] ∧
      assocGet (okOr (jbg_detail_step idxC9p emptyB (2, rowC9p)) emptyB).defaults
        "price_from_catalog" = some 1) ∧
    ((okOr (jbg_detail_step [] emptyB (2, rowC9m)) emptyB).errors = [] ∧
      (okOr (jbg_detail_step [] emptyB (2, rowC9m)) emptyB).listings.length = 1) :=
  ⟨claim_C9.1 idxC9 emptyB 2 rowC9 "P1" catC9 "https://cat/u1" _ rfl rfl rfl rfl rfl,
   claim_C9.2.2.1 idxC9p emptyB 2 rowC9p "P1" "https://d/u" 25 _ rfl rfl rfl rfl rfl,
   claim_C9.2.2.2 [] emptyB 2 rowC9m "P9" "https://d/m" _ rfl rfl rfl rfl⟩

/-- C9 counterexample: the claim as stated is false — at a concrete detail
row lacking its URL, the value is backfilled from the catalog counterpart
but no "defaulted from catalog" counter is recorded for it (the only
counters recorded are the brand/model-unknown defaults). -/
theorem claim_C9_counterexample :
    cleanCell (rowGet rowC9 "product_url") = none ∧
    (okOr (jbg_detail_step idxC9 emptyB (2, rowC9)) emptyB).listings.map
      (fun l => l.url) = ["https://cat/u1"] ∧
    (okOr (jbg_detail_step idxC9 emptyB (2, rowC9)) emptyB).defaults =
      [("brand_unknown", 1), ("model_unknown", 1)] := ⟨rfl, rfl, rfl⟩


theorem splitOnChar_ne_nil (sep : Char) : ∀ (cs : List Char), splitOnChar sep cs ≠ [] := by
  intro cs
  cases cs with
  | nil => simp [splitOnChar]
  | cons a tl =>
    simp only [splitOnChar]
    cases h : splitOnChar sep tl with
    | nil => simp
    | cons g gs =>
      by_cases ha : a = sep
      · simp [ha]
      · simp [ha]

theorem splitOnChar_no_sep (sep : Char) :
    ∀ (cs : List Char), (∀ x ∈ cs, x ≠ sep) → splitOnChar sep cs = [cs] := by
  intro cs
  induction cs with
  | nil => intro _; rfl
  | cons a tl ih =>
    intro h
    simp only [splitOnChar]
    rw [ih (fun x hx => h x (List.mem_cons_of_mem _ hx))]
    simp [h a (List.mem_cons_self _ _)]

theorem splitOnChar_append_sep (sep : Char) :
    ∀ (a rest : List Char), (∀ x ∈ a, x ≠ sep) →
      splitOnChar sep (a ++ sep :: rest) = a :: splitOnChar sep rest := by
  intro a
  induction a with
  | nil =>
    intro rest _
    simp only [List.nil_append, splitOnChar]
    cases h : splitOnChar sep rest with
    | nil => exact absurd h (splitOnChar_ne_nil sep rest)
    | cons g gs => simp
  | cons x a2 ih =>
    intro rest h
    simp only [List.cons_append, splitOnChar, List.append_eq]
    rw [ih rest (fun y hy => h y (List.mem_cons_of_mem _ hy))]
    simp [h x (List.mem_cons_self _ _)]

theorem slug_no_colon (s : Option String) : ∀ x ∈ (slug s).toList, x ≠ ':' := by
  intro x hx
  have hwf := isSlug_slug s
  simp only [isSlug, Bool.and_eq_true, List.all_eq_true] at hwf
  have hc := hwf.1.1.1.2 x hx
  intro h0
  rw [h0] at hc
  exact absurd hc (by decide)

theorem str_toList_append (s t : String) : (s ++ t).toList = s.toList ++ t.toList := rfl

/-- C10 (amended): `_slug` always yields a well-formed slug (non-empty,
lowercase alphanumerics separated by single hyphens, no leading or trailing
hyphen, "unknown" as fallback) and is idempotent; consequently every
colon-separated component of every variant-record `glove_id` is a
well-formed slug. (Artifact `glove_id`s embed the raw source tag and
listing id, which need not be slugs.) -/
theorem claim_C10 :
    (∀ s : Option String, isSlug (slug s) = true ∧ slug (some (slug s)) = slug s) ∧
    (∀ b m sz h : Option String,
      gloveIdParts ("variant:" ++ slug b ++ ":" ++ slug m ++ ":" ++ slug sz ++ ":" ++ slug h) =
        ["variant", slug b, slug m, slug sz, slug h] ∧
      ∀ p ∈ gloveIdParts ("variant:" ++ slug b ++ ":" ++ slug m ++ ":" ++ slug sz ++ ":" ++ slug h),
        isSlug p = true) := by
  constructor
  · exact fun s => ⟨isSlug_slug s, slug_idem s⟩
  · intro b m sz h
    have hparts : gloveIdParts
        ("variant:" ++ slug b ++ ":" ++ slug m ++ ":" ++ slug sz ++ ":" ++ slug h) =
        ["variant", slug b, slug m, slug sz, slug h] := by
      unfold gloveIdParts
      have hl : ("variant:" ++ slug b ++ ":" ++ slug m ++ ":" ++ slug sz ++ ":" ++ slug h).toList =
          "variant".toList ++ ':' :: ((slug b).toList ++ ':' ::
            ((slug m).toList ++ ':' :: ((slug sz).toList ++ ':' :: (slug h).toList))) := by
        simp only [str_toList_append]
        simp [List.append_assoc]
      rw [hl]
      rw [splitOnChar_append_sep ':' _ _ (by decide)]
      rw [splitOnChar_append_sep ':' _ _ (slug_no_colon b)]
      rw [splitOnChar_append_sep ':' _ _ (slug_no_colon m)]
      rw [splitOnChar_append_sep ':' _ _ (slug_no_colon sz)]
      rw [splitOnChar_no_sep ':' _ (slug_no_colon h)]
      simp only [List.map_cons, List.map_nil]
      rfl
    refine ⟨hparts, ?_⟩
    rw [hparts]
    intro p hp
    simp only [List.mem_cons, List.not_mem_nil, or_false] at hp
    rcases hp with rfl | rfl | rfl | rfl | rfl
    · decide
    · exact isSlug_slug _
    · exact isSlug_slug _
    · exact isSlug_slug _
    · exact isSlug_slug _


/-- C10 witness: the slug facts at concrete inputs, and the components fact
instantiated at a concrete glove id and component. -/
theorem claim_C10_witness :
    isSlug (slug (some "Wilson A2000!")) = true ∧
    slug (some (slug (some "Wilson A2000!"))) = slug (some "Wilson A2000!") ∧
    isSlug "variant" = true := by
  refine ⟨(claim_C10.1 (some "Wilson A2000!")).1, (claim_C10.1 (some "Wilson A2000!")).2, ?_⟩
  exact (claim_C10.2 none none none none).2 "variant"
    (by rw [(claim_C10.2 none none none none).1]; simp)

/-- C10 counterexample: the claim as stated is false — an artifact-record
`glove_id` generated by the export embeds the raw source tag: it has the
component "SS", which is not a well-formed slug. -/
theorem claim_C10_counterexample :
    (okOr (build_exports "in.xlsx" wbC10 "gloveiq" "T0") emptyExports).listings.map
      (fun l => l.glove_id) = ["artifact:SS:X1"] ∧
    gloveIdParts "artifact:SS:X1" = ["artifact", "SS", "X1"] ∧
    "SS" ∈ gloveIdParts "artifact:SS:X1" ∧
    isSlug "SS" = false := ⟨rfl, rfl, by decide, by decide⟩


end GloveIQ
